import Mathlib

/-!
Verification development for the YM7128B emulator's command-line driver
(`src/example/YM7128B_pipe.c`).  The driver's sample-format readers and
writers, argument parser, preset/register tables and read-process-write
loops are embedded shallowly below; the chip engines themselves live in a
header that is not part of the sources, so they appear as abstract step
functions, with the few constants they contribute modelled from the
specification.  Floating-point samples (`YM7128B_Float` / `double`) are
modelled as rational numbers: every operation performed on them by the
driver (division by a power of two, min/max, truncation, linear mixing)
is exact on the dyadic rationals involved.
-/

namespace YM7128B

/-- Truncation toward zero, the behavior of a C cast from a floating-point
value to an integer type (`(int8_t)x` etc.). -/
def truncQ (x : ℚ) : ℤ :=
  Int.tdiv x.num x.den

/-- Wrap an integer into the range of an `N`-bit two's-complement type,
modelling the implementation-defined (in practice wrapping) conversion a C
compiler applies when a value is stored into `intN_t`. -/
def wrapI (N : ℕ) (z : ℤ) : ℤ :=
  (z + 2 ^ (N - 1)) % 2 ^ N - 2 ^ (N - 1)

/-- Value of a raw `N`-bit unsigned pattern reinterpreted as `intN_t`
(the result of `fread` into a signed variable). -/
def toIntN (N : ℕ) (u : ℕ) : ℤ :=
  wrapI N u

/-- ReadS8 (YM7128B_pipe.c:208): `*dst = (YM7128B_Float)src / -(YM7128B_Float)INT8_MIN`,
with `src` the `int8_t` just read. -/
def ReadS8 (src : ℤ) : ℚ := (src : ℚ) / 128

/-- ReadU8 (YM7128B_pipe.c:198): reads an `int8_t`, then `src += INT8_MIN`
(wrapping in `int8_t`) before the same normalization as `ReadS8`. -/
def ReadU8 (src : ℤ) : ℚ := (wrapI 8 (src + (-128)) : ℚ) / 128

/-- ReadS16L / ReadS16B (YM7128B_pipe.c:237, 246): normalization by
`-INT16_MIN = 32768` of the `int16_t` read (endianness only affects the
byte order consumed, not the value arithmetic). -/
def ReadS16 (src : ℤ) : ℚ := (src : ℚ) / 32768

/-- ReadU16L / ReadU16B (YM7128B_pipe.c:217, 227). -/
def ReadU16 (src : ℤ) : ℚ := (wrapI 16 (src + (-32768)) : ℚ) / 32768

/-- ReadS32L / ReadS32B (YM7128B_pipe.c:275, 284). -/
def ReadS32 (src : ℤ) : ℚ := (src : ℚ) / 2147483648

/-- ReadU32L / ReadU32B (YM7128B_pipe.c:255, 265). -/
def ReadU32 (src : ℤ) : ℚ := (wrapI 32 (src + (-2147483648)) : ℚ) / 2147483648

/-- WriteS8 (YM7128B_pipe.c:380): `scaled = src * 128`, clamp via
`fmin(fmax(scaled, INT8_MIN), INT8_MAX)`, cast to `int8_t` (truncation). -/
def WriteS8 (src : ℚ) : ℤ := truncQ (min (max (src * 128) (-128)) 127)

/-- WriteU8 (YM7128B_pipe.c:373): as `WriteS8` followed by `dst -= INT8_MIN`
(wrapping in `int8_t`); the result here is the unsigned byte value that
`fwrite` stores. -/
def WriteU8 (src : ℚ) : ℤ :=
  wrapI 8 (truncQ (min (max (src * 128) (-128)) 127) - (-128)) % 256

/-- WriteS16L / WriteS16B (YM7128B_pipe.c:400, 406). -/
def WriteS16 (src : ℚ) : ℤ := truncQ (min (max (src * 32768) (-32768)) 32767)

/-- WriteU16L / WriteU16B (YM7128B_pipe.c:386, 393); result is the unsigned
16-bit pattern stored to the stream. -/
def WriteU16 (src : ℚ) : ℤ :=
  wrapI 16 (truncQ (min (max (src * 32768) (-32768)) 32767) - (-32768)) % 65536

/-- WriteS32L / WriteS32B (YM7128B_pipe.c:426, 432). -/
def WriteS32 (src : ℚ) : ℤ :=
  truncQ (min (max (src * 2147483648) (-2147483648)) 2147483647)

/-- WriteU32L / WriteU32B (YM7128B_pipe.c:412, 419); result is the unsigned
32-bit pattern stored to the stream. -/
def WriteU32 (src : ℚ) : ℤ :=
  wrapI 32 (truncQ (min (max (src * 2147483648) (-2147483648)) 2147483647)
    - (-2147483648)) % 4294967296

/-- Byte-level `ReadS8`: the reader applied to the single raw byte consumed
from the stream. -/
def ReadS8b (b : ℕ) : ℚ := ReadS8 (toIntN 8 b)

/-- Byte-level `WriteS8`: the single raw byte (unsigned value) that the
writer emits. -/
def WriteS8b (f : ℚ) : ℕ := (WriteS8 f % 256).toNat

/-- Byte-level `ReadS16L`: the reader applied to two raw bytes in
little-endian order. -/
def ReadS16Lb (b0 b1 : ℕ) : ℚ := ReadS16 (toIntN 16 (b0 + 256 * b1))

/-- Byte-level `WriteS16L`: the two raw bytes (little-endian) that the
writer emits. -/
def WriteS16Lb (f : ℚ) : ℕ × ℕ :=
  let u := (WriteS16 f % 65536).toNat
  (u % 256, u / 256)

/-- Value of a hexadecimal digit character, following the three range tests
in `HexToByte` (YM7128B_pipe.c:736-744). -/
def hexDigitVal (c : Char) : Option ℕ :=
  if '0' ≤ c ∧ c ≤ '9' then some (c.toNat - '0'.toNat)
  else if 'a' ≤ c ∧ c ≤ 'f' then some (c.toNat - 'a'.toNat + 10)
  else if 'A' ≤ c ∧ c ≤ 'F' then some (c.toNat - 'A'.toNat + 10)
  else none

/-- HexToByte (YM7128B_pipe.c:731): for each of the two characters, the
digit value is OR-ed into the 8-bit accumulator and the accumulator is then
shifted left by 4 (in this order, as written in the source).  The boolean is
true when the function set `errno` (a non-hex character was found). -/
def HexToByte (c0 c1 : Char) : ℕ × Bool :=
  match hexDigitVal c0 with
  | none => (0, true)
  | some d0 =>
    let v1 := ((0 ||| d0) <<< 4) % 256
    match hexDigitVal c1 with
    | none => (0, true)
    | some d1 => (((v1 ||| d1) <<< 4) % 256, false)

/-- Chip engine selector (`YM7128B_ChipEngine`, values as listed in
MODE_TABLE, YM7128B_pipe.c:513). -/
inductive ChipEngine where
  | Fixed
  | Float
  | Ideal
  | Short
deriving DecidableEq

/-- Labels of FORMAT_TABLE (YM7128B_pipe.c:488), in order; the driver keeps
the index, which selects the reader/writer pair of that row. -/
def FORMAT_LABELS : List String :=
  ["dummy", "U8", "S8", "U16_LE", "U16_BE", "S16_LE", "S16_BE",
   "U32_LE", "U32_BE", "S32_LE", "S32_BE", "FLOAT_LE", "FLOAT_BE",
   "FLOAT64_LE", "FLOAT64_BE"]

/-- MODE_TABLE (YM7128B_pipe.c:513). -/
def MODE_TABLE : List (String × ChipEngine) :=
  [("fixed", .Fixed), ("float", .Float), ("ideal", .Ideal), ("short", .Short)]

/-- REGISTER_TABLE (YM7128B_pipe.c:526): label to register address; the
enumeration values of `YM7128B_Reg` are the positions 0..30 (modelled from
the spec's register list, the header being external). -/
def REGISTER_TABLE : List (String × ℕ) :=
  [("GL1", 0), ("GL2", 1), ("GL3", 2), ("GL4", 3),
   ("GL5", 4), ("GL6", 5), ("GL7", 6), ("GL8", 7),
   ("GR1", 8), ("GR2", 9), ("GR3", 10), ("GR4", 11),
   ("GR5", 12), ("GR6", 13), ("GR7", 14), ("GR8", 15),
   ("VM", 16), ("VC", 17), ("VL", 18), ("VR", 19),
   ("C0", 20), ("C1", 21),
   ("T0", 22), ("T1", 23), ("T2", 24), ("T3", 25), ("T4", 26),
   ("T5", 27), ("T6", 28), ("T7", 29), ("T8", 30)]

/-- PRESET_TABLE (YM7128B_pipe.c:571): each row lists the 31 register
values written in the source initializer, padded with a trailing 0 to the
32-entry register file (`YM7128B_Reg_Count = 32`, modelled from the spec;
a C array initializer zero-fills the remaining element). -/
def PRESET_TABLE : List (String × List ℤ) :=
  [("off",
    [0x00, 0x00, 0x00, 0x00, 0x00, 0x00, 0x00, 0x00,
     0x00, 0x00, 0x00, 0x00, 0x00, 0x00, 0x00, 0x00,
     0x00, 0x00, 0x00, 0x00,
     0x00, 0x00,
     0x00, 0x00, 0x00, 0x00, 0x00, 0x00, 0x00, 0x00, 0x00, 0]),
   ("direct",
    [0x3F, 0x00, 0x00, 0x00, 0x00, 0x00, 0x00, 0x00,
     0x3F, 0x00, 0x00, 0x00, 0x00, 0x00, 0x00, 0x00,
     0x3F, 0x00, 0x3F, 0x3F,
     0x00, 0x00,
     0x00, 0x00, 0x00, 0x00, 0x00, 0x00, 0x00, 0x00, 0x00, 0]),
   ("gold/recital_hall",
    [0x1F, 0x3E, 0x1D, 0x3C, 0x1B, 0x3A, 0x19, 0x38,
     0x3F, 0x1E, 0x3D, 0x1C, 0x3B, 0x1A, 0x39, 0x18,
     0x18, 0x1C, 0x1C, 0x1C,
     0x15, 0x15,
     0x14, 0x04, 0x06, 0x08, 0x0A, 0x0C, 0x0E, 0x10, 0x12, 0]),
   ("gold/concert_hall",
    [0x31, 0x00, 0x15, 0x00, 0x39, 0x00, 0x1D, 0x00,
     0x00, 0x33, 0x00, 0x17, 0x00, 0x3B, 0x00, 0x1F,
     0x1A, 0x1C, 0x1D, 0x1D,
     0x16, 0x16,
     0x1F, 0x1C, 0x19, 0x16, 0x13, 0x10, 0x0D, 0x0A, 0x07, 0]),
   ("gold/chapel",
    [0x1F, 0x1E, 0x1D, 0x1C, 0x1B, 0x1A, 0x19, 0x18,
     0x3F, 0x3E, 0x3D, 0x3C, 0x3B, 0x3A, 0x39, 0x38,
     0x38, 0x3D, 0x1B, 0x1B,
     0x10, 0x10,
     0x1F, 0x1F, 0x1D, 0x1B, 0x19, 0x17, 0x15, 0x13, 0x11, 0]),
   ("gold/jazz_club",
    [0x1F, 0x1B, 0x37, 0x13, 0x2F, 0x0B, 0x27, 0x03,
     0x1F, 0x3B, 0x17, 0x33, 0x0F, 0x2B, 0x07, 0x23,
     0x1C, 0x1F, 0x1B, 0x1B,
     0x0C, 0x0C,
     0x1F, 0x03, 0x07, 0x0B, 0x0F, 0x13, 0x17, 0x1B, 0x1F, 0]),
   ("gold/movie_theater",
    [0x1F, 0x00, 0x17, 0x00, 0x0F, 0x00, 0x07, 0x00,
     0x00, 0x1F, 0x00, 0x17, 0x00, 0x0F, 0x00, 0x07,
     0x1A, 0x1D, 0x1C, 0x1C,
     0x16, 0x16,
     0x1F, 0x03, 0x07, 0x0B, 0x0F, 0x13, 0x17, 0x1B, 0x1F, 0]),
   ("gold/stadium",
    [0x1F, 0x00, 0x1B, 0x00, 0x17, 0x00, 0x33, 0x00,
     0x00, 0x1D, 0x00, 0x19, 0x00, 0x15, 0x00, 0x11,
     0x1D, 0x1D, 0x3D, 0x3D,
     0x13, 0x13,
     0x06, 0x02, 0x04, 0x06, 0x08, 0x0A, 0x0C, 0x0E, 0x10, 0]),
   ("gold/cavern",
    [0x1F, 0x00, 0x1D, 0x00, 0x1B, 0x00, 0x19, 0x00,
     0x20, 0x3E, 0x20, 0x3C, 0x20, 0x3A, 0x20, 0x38,
     0x3C, 0x3E, 0x1C, 0x1C,
     0x11, 0x0A,
     0x12, 0x10, 0x0E, 0x0C, 0x0A, 0x08, 0x06, 0x04, 0x02, 0]),
   ("gold/deep_space",
    [0x18, 0x00, 0x1A, 0x00, 0x1C, 0x00, 0x1E, 0x00,
     0x00, 0x19, 0x00, 0x1B, 0x00, 0x1D, 0x00, 0x1F,
     0x1B, 0x1F, 0x1C, 0x1C,
     0x12, 0x08,
     0x1F, 0x07, 0x0A, 0x0D, 0x10, 0x13, 0x16, 0x19, 0x1C, 0]),
   ("dune/arrakis",
    [0x1F, 0x00, 0x17, 0x00, 0x0F, 0x00, 0x07, 0x00,
     0x00, 0x1F, 0x00, 0x17, 0x00, 0x0F, 0x00, 0x07,
     0x1A, 0x1D, 0x1A, 0x1A,
     0x16, 0x16,
     0x1F, 0x03, 0x07, 0x0B, 0x0F, 0x13, 0x17, 0x1B, 0x1F, 0]),
   ("dune/baghdad",
    [0x1F, 0x00, 0x1B, 0x00, 0x17, 0x00, 0x33, 0x00,
     0x00, 0x1D, 0x00, 0x19, 0x00, 0x15, 0x00, 0x11,
     0x1D, 0x1D, 0x1D, 0x1D,
     0x13, 0x13,
     0x06, 0x02, 0x04, 0x06, 0x08, 0x0A, 0x0C, 0x0E, 0x10, 0]),
   ("dune/morning",
    [0x1F, 0x00, 0x17, 0x00, 0x0F, 0x00, 0x07, 0x00,
     0x00, 0x1F, 0x00, 0x17, 0x00, 0x0F, 0x00, 0x07,
     0x1A, 0x1D, 0x1B, 0x1B,
     0x16, 0x16,
     0x1F, 0x03, 0x07, 0x0B, 0x0F, 0x13, 0x17, 0x1B, 0x1F, 0]),
   ("dune/sequence",
    [0x1F, 0x00, 0x17, 0x00, 0x0F, 0x00, 0x07, 0x00,
     0x00, 0x1F, 0x00, 0x17, 0x00, 0x0F, 0x00, 0x07,
     0x1A, 0x1D, 0x1C, 0x1C,
     0x16, 0x16,
     0x1F, 0x03, 0x07, 0x0B, 0x0F, 0x13, 0x17, 0x1B, 0x1F, 0]),
   ("dune/sietch",
    [0x1F, 0x00, 0x1B, 0x00, 0x17, 0x00, 0x33, 0x00,
     0x00, 0x1D, 0x00, 0x19, 0x00, 0x15, 0x00, 0x11,
     0x1D, 0x1D, 0x1D, 0x1D,
     0x13, 0x13,
     0x06, 0x02, 0x04, 0x06, 0x08, 0x0A, 0x0C, 0x0E, 0x10, 0]),
   ("dune/warsong",
    [0x1F, 0x00, 0x17, 0x00, 0x0F, 0x00, 0x07, 0x00,
     0x00, 0x1F, 0x00, 0x17, 0x00, 0x0F, 0x00, 0x07,
     0x1A, 0x1D, 0x1C, 0x1C,
     0x16, 0x16,
     0x1F, 0x03, 0x07, 0x0B, 0x0F, 0x13, 0x17, 0x1B, 0x1F, 0]),
   ("dune/water",
    [0x1F, 0x00, 0x17, 0x00, 0x0F, 0x00, 0x07, 0x00,
     0x00, 0x1F, 0x00, 0x17, 0x00, 0x0F, 0x00, 0x07,
     0x1A, 0x1D, 0x1A, 0x1A,
     0x16, 0x16,
     0x1F, 0x03, 0x07, 0x0B, 0x0F, 0x13, 0x17, 0x1B, 0x1F, 0]),
   ("dune/wormintro",
    [0x1F, 0x00, 0x17, 0x00, 0x0F, 0x00, 0x07, 0x00,
     0x00, 0x1F, 0x00, 0x17, 0x00, 0x0F, 0x00, 0x07,
     0x1A, 0x1D, 0x18, 0x18,
     0x16, 0x16,
     0x1F, 0x03, 0x07, 0x0B, 0x0F, 0x13, 0x17, 0x1B, 0x1F, 0]),
   ("dune/wormsuit",
    [0x18, 0x00, 0x1A, 0x00, 0x1C, 0x00, 0x1E, 0x00,
     0x00, 0x19, 0x00, 0x1B, 0x00, 0x1D, 0x00, 0x1F,
     0x1B, 0x1F, 0x17, 0x17,
     0x12, 0x08,
     0x1F, 0x07, 0x0A, 0x0D, 0x10, 0x13, 0x16, 0x19, 0x1C, 0])]

/-- Linear scan of a label table, as the `for (j = 0; table[j].label; ++j)`
loops in `main` do. -/
def tableFind {β : Type} (tbl : List (String × β)) (label : String) : Option β :=
  (tbl.find? (fun p => p.1 == label)).map Prod.snd

/-- Parsed driver configuration (struct `Args`, YM7128B_pipe.c:713).  The
reader/writer function pointers are represented by the format-table index
`fmtIdx`; `dry`/`wet` live in an arbitrary type `α` so that the
decibel-to-linear conversion (`pow`) can be interpreted later. -/
structure Args (α : Type) where
  fmtIdx : ℕ
  dry : α
  wet : α
  rate : ℤ
  chip_engine : ChipEngine
  regs : List ℤ
deriving DecidableEq

/-- Outcome of the argument-scanning loop of `main` (YM7128B_pipe.c:768):
either an early `return` with an exit code, or fall-through to the engine
dispatch with the final configuration. -/
inductive ParseOut (α : Type) where
  | exit (code : ℕ)
  | run (args : Args α)
deriving DecidableEq

/-- Initial `Args` set up at the top of `main` (YM7128B_pipe.c:757): format
U8 (index 1 of the format table), unit dry/wet multipliers, the native
input rate (`YM7128B_Input_Rate` = 23550, modelled from the spec since the
header is external), fixed engine, all 32 registers zero. -/
def defaultArgs {α : Type} [One α] : Args α :=
  ⟨1, 1, 1, 23550, .Fixed, List.replicate 32 0⟩

/-- C `isspace` for the default locale. -/
def isSpaceC (c : Char) : Bool :=
  c = ' ' || c = '\t' || c = '\n' || c = '\x0b' || c = '\x0c' || c = '\r'

/-- Digit value of `c` in the given base (digits beyond the base are not
consumed). -/
def digitValB (base : ℕ) (c : Char) : Option ℕ :=
  match hexDigitVal c with
  | some d => if d < base then some d else none
  | none => none

/-- Longest run of digits of the given base at the head of the string. -/
def takeDigits (base : ℕ) : List Char → List ℕ
  | [] => []
  | c :: rest =>
    match digitValB base c with
    | some d => d :: takeDigits base rest
    | none => []

/-- Accumulate digit values into a number. -/
def natOfDigits (base : ℕ) (ds : List ℕ) : ℕ :=
  ds.foldl (fun a d => a * base + d) 0

/-- Strip a `0x` / `0X` prefix (base-16 `strtol`).  When no digits follow,
`strtol` re-parses just the leading `0`, which yields the same value 0 as
stripping does, so the value semantics agree. -/
def strip0x : List Char → List Char
  | '0' :: 'x' :: rest => rest
  | '0' :: 'X' :: rest => rest
  | cs => cs

/-- C `strtol(s, NULL, base)` for base 10 or 16 as used by the driver:
skip spaces, optional sign, optional `0x` for base 16, longest digit run;
the boolean is true when the result overflowed `long` (64-bit) and `errno`
was set to `ERANGE`, in which case the value is clamped to
`LONG_MIN`/`LONG_MAX`. -/
def strtol (base : ℕ) (s : String) : ℤ × Bool :=
  let cs := s.data.dropWhile isSpaceC
  let p : Bool × List Char :=
    match cs with
    | '-' :: r => (true, r)
    | '+' :: r => (false, r)
    | _ => (false, cs)
  let cs2 := if base = 16 then strip0x p.2 else p.2
  let mag := natOfDigits base (takeDigits base cs2)
  if p.1 then
    if 2 ^ 63 < mag then (-(2 ^ 63), true) else (-(mag : ℤ), false)
  else
    if 2 ^ 63 - 1 < mag then (2 ^ 63 - 1, true) else ((mag : ℤ), false)

/-- Split a character list into consecutive pairs (a trailing odd character
is dropped, as `--regdump` only looks at `strlen/2` pairs). -/
def chunkPairs : List Char → List (Char × Char)
  | c0 :: c1 :: rest => (c0, c1) :: chunkPairs rest
  | _ => []

/-- Inner loop of the `--regdump` handler (YM7128B_pipe.c:873): decode one
pair per register starting at address 0; `none` models the `errno` early
`return 1`.  `e` threads the incoming `errno` state. -/
def regdumpGo (e : Bool) (r : ℕ) (regs : List ℤ) : List (Char × Char) → Option (List ℤ)
  | [] => some regs
  | p :: ps =>
    let h := HexToByte p.1 p.2
    let e2 := e || h.2
    if e2 then none
    else regdumpGo e2 (r + 1) (regs.set r (h.1 : ℤ)) ps

/-- The `--regdump` handler (YM7128B_pipe.c:867): decode
`min(strlen/2, 32)` pairs into registers from address 0, then zero the
remaining registers. -/
def regdumpApply (e : Bool) (cs : List Char) (regs : List ℤ) : Option (List ℤ) :=
  let len := min (cs.length / 2) 32
  match regdumpGo e 0 regs (chunkPairs (cs.take (2 * len))) with
  | none => none
  | some rs => some (rs.mapIdx (fun i v => if i < len then v else 0))

/-- The argument-scanning loop of `main` (YM7128B_pipe.c:768), one element
of `argv` per iteration.  `e` is the `errno` flag threaded between
handlers, checked at the bottom of each iteration (line 904).  `powConv`
interprets `pow(10, db / 20)` (YM7128B_pipe.c:791). -/
def parseLoop {α : Type} [Zero α] (powConv : ℤ → α) :
    Args α → Bool → List String → ParseOut α
  | a, _, [] => .run a
  | a, e, x :: rest =>
    if x == "-h" || x == "--help" then .exit 0
    else
      match rest with
      | [] => .exit 1
      | v :: rest2 =>
        if x == "--dry" then
          let p := strtol 10 v
          let e2 := e || p.2
          if e2 then .exit 1
          else
            let a2 := { a with
              dry := if p.1 ≤ -128 || 128 ≤ p.1 then 0 else powConv p.1 }
            if e2 then .exit 1 else parseLoop powConv a2 e2 rest2
        else if x == "-f" || x == "--format" then
          match FORMAT_LABELS.findIdx? (· == v) with
          | none => .exit 1
          | some j =>
            if e then .exit 1 else parseLoop powConv { a with fmtIdx := j } e rest2
        else if x == "-e" || x == "--engine" then
          match tableFind MODE_TABLE v with
          | none => .exit 1
          | some eng =>
            if e then .exit 1 else parseLoop powConv { a with chip_engine := eng } e rest2
        else if x == "--preset" then
          match tableFind PRESET_TABLE v with
          | none => .exit 1
          | some rs =>
            if e then .exit 1 else parseLoop powConv { a with regs := rs } e rest2
        else if x == "-r" || x == "--rate" then
          let p := strtol 10 v
          let e2 := e || p.2
          if e2 || p.1 < 1 then .exit 1
          else
            if e2 then .exit 1 else parseLoop powConv { a with rate := p.1 } e2 rest2
        else if x.data.take 6 == "--reg-".data then
          match tableFind REGISTER_TABLE (String.mk (x.data.drop 6)) with
          | none => .exit 1
          | some r =>
            let p := strtol 16 v
            let e2 := e || p.2
            if e2 || p.1 < 0 || 255 < p.1 then .exit 1
            else
              if e2 then .exit 1
              else parseLoop powConv { a with regs := a.regs.set r p.1 } e2 rest2
        else if x == "--regdump" then
          match regdumpApply e v.data a.regs with
          | none => .exit 1
          | some rs =>
            if e then .exit 1 else parseLoop powConv { a with regs := rs } e rest2
        else if x == "--wet" then
          let p := strtol 10 v
          let e2 := e || p.2
          if e2 then .exit 1
          else
            let a2 := { a with
              wet := if p.1 ≤ -128 || 128 ≤ p.1 then 0 else powConv p.1 }
            if e2 then .exit 1 else parseLoop powConv a2 e2 rest2
        else .exit 1

/-- A sample format as consumed by the processing loops: number of raw
bytes per sample and the decoding of those bytes to the normalized float
value (the `STREAM_READER` side of a FORMAT_TABLE row). -/
structure SampleFormat where
  size : ℕ
  size_pos : 0 < size
  dec : List ℕ → ℚ

/-- One `stream_reader` call: succeeds exactly when `size` raw bytes are
available, consuming them; a short read (including none at all) fails. -/
def readSample (fmt : SampleFormat) (stdin : List ℕ) : Option (ℚ × List ℕ) :=
  if fmt.size ≤ stdin.length then
    some (fmt.dec (stdin.take fmt.size), stdin.drop fmt.size)
  else none

/-- Common shape of the four Run functions' chip usage: `prep` converts a
read float to the chip input type (quantization for the fixed-point
engines, identity otherwise), `dry` converts the stored mono input back to
a float for the dry path, and `step` performs one `Process` call, returning
per-channel lists of K wet output floats. -/
structure EngineModel (σ ι : Type) where
  prep : ℚ → ι
  dry : ι → ℚ
  step : σ → ι × ι → σ × List (List ℚ)

/-- The driver's output mix (YM7128B_pipe.c:984):
`value = (dry * args->dry) + (wet * args->wet)`. -/
def mix (dryM wetM : ℚ) (p : ℚ × ℚ) : ℚ :=
  p.1 * dryM + p.2 * wetM

/-- One tick of chip processing: the new chip state and, for each written
output sample in order, its (dry, wet) value pair. -/
def tickPairs {σ ι : Type} (E : EngineModel σ ι) (s : σ) (v0 v1 : ℚ) :
    σ × List (ℚ × ℚ) :=
  let r := E.step s (E.prep v0, E.prep v1)
  (r.1, (r.2.map (fun ch => ch.map (fun w => (E.dry (E.prep v0), w)))).flatten)

/-- The (dry, wet) pairs of all samples written across a list of input
ticks. -/
def pairTrace {σ ι : Type} (E : EngineModel σ ι) : σ → List (ℚ × ℚ) → List (ℚ × ℚ)
  | _, [] => []
  | s, v :: vs =>
    let r := tickPairs E s v.1 v.2
    r.2 ++ pairTrace E r.1 vs

/-- Fuel-indexed read-process-write loop shared by the four Run functions
(YM7128B_pipe.c:960, 1017, 1070, 1121): per iteration, one sample is read
per input channel (2 channels); a failed read ends the loop with exit code
1 when the stream has an error (`ferror`) and 0 otherwise (EOF); the mixed
output samples are written one by one, a failed write exiting with code 1.
`cap` is the number of writes the output stream still accepts (`none` for
unlimited).  The fuel only bounds recursion; `runLoop` supplies enough. -/
def runLoopF {σ ι : Type} (E : EngineModel σ ι) (dryM wetM : ℚ)
    (fmt : SampleFormat) (ferr : Bool) :
    ℕ → σ → Option ℕ → List ℕ → ℕ × List ℚ
  | 0, _, _, _ => (0, [])
  | fuel + 1, s, cap, stdin =>
    match readSample fmt stdin with
    | none => (if ferr then 1 else 0, [])
    | some (v0, rest0) =>
      match readSample fmt rest0 with
      | none => (if ferr then 1 else 0, [])
      | some (v1, rest1) =>
        let r := tickPairs E s v0 v1
        let vals := r.2.map (mix dryM wetM)
        match cap with
        | none =>
          let q := runLoopF E dryM wetM fmt ferr fuel r.1 none rest1
          (q.1, vals ++ q.2)
        | some n =>
          if vals.length ≤ n then
            let q := runLoopF E dryM wetM fmt ferr fuel r.1 (some (n - vals.length)) rest1
            (q.1, vals ++ q.2)
          else (1, vals.take n)

/-- The read-process-write loop on a finite input byte stream. -/
def runLoop {σ ι : Type} (E : EngineModel σ ι) (dryM wetM : ℚ)
    (fmt : SampleFormat) (ferr : Bool) (s : σ) (cap : Option ℕ)
    (stdin : List ℕ) : ℕ × List ℚ :=
  runLoopF E dryM wetM fmt ferr (stdin.length + 1) s cap stdin

/-- Modelled from the spec: `YM7128B_ClampFloat` (external header) clamps a
float sample to the nominal [-1, +1] range. -/
def ClampFloat (x : ℚ) : ℚ := min 1 (max (-1) x)

/-- Modelled from the spec: `YM7128B_Fixed_Max` (external header), the
maximum of the signed 14-bit fixed sample range [-8192, 8191] (spec 4.2). -/
def Fixed_Max : ℤ := 8191

/-- Input quantization of the fixed-point engines (YM7128B_pipe.c:972):
`data.inputs[c] = (YM7128B_Fixed)(YM7128B_ClampFloat(value) * k)`. -/
def quantFixed (x : ℚ) : ℤ := truncQ (ClampFloat x * (Fixed_Max : ℚ))

/-- Modelled from the spec: a Fixed-engine chip is an abstract state type
with register initialization (Ctor/Reset/Write/Start sequence,
YM7128B_pipe.c:952) and a `Process` step producing `outputs[2][2]`
(2 output channels, 2x oversampling). -/
structure FixedChipModel (σ : Type) where
  init : List ℤ → σ
  step : σ → ℤ × ℤ → σ × (Fin 2 → Fin 2 → ℤ)

/-- Modelled from the spec: a Float-engine chip (`outputs[2][2]` floats). -/
structure FloatChipModel (σ : Type) where
  init : List ℤ → σ
  step : σ → ℚ × ℚ → σ × (Fin 2 → Fin 2 → ℚ)

/-- Modelled from the spec: an Ideal-engine chip; `init` also takes the
configured rate (`Setup`, YM7128B_pipe.c:1062) and `Process` produces one
output pair per tick. -/
structure IdealChipModel (σ : Type) where
  init : ℤ → List ℤ → σ
  step : σ → ℚ × ℚ → σ × (Fin 2 → ℚ)

/-- Modelled from the spec: a Short-engine chip (rate-configured, fixed
samples, one output pair per tick). -/
structure ShortChipModel (σ : Type) where
  init : ℤ → List ℤ → σ
  step : σ → ℤ × ℤ → σ × (Fin 2 → ℤ)

/-- Engine model of `RunFixed`'s loop body (YM7128B_pipe.c:960-992). -/
def FixedEngine {σ : Type} (step : σ → ℤ × ℤ → σ × (Fin 2 → Fin 2 → ℤ)) :
    EngineModel σ ℤ where
  prep := quantFixed
  dry := fun i => (i : ℚ) / (Fixed_Max : ℚ)
  step := fun s p =>
    let r := step s p
    (r.1, [[(r.2 0 0 : ℚ) / (Fixed_Max : ℚ), (r.2 0 1 : ℚ) / (Fixed_Max : ℚ)],
           [(r.2 1 0 : ℚ) / (Fixed_Max : ℚ), (r.2 1 1 : ℚ) / (Fixed_Max : ℚ)]])

/-- Engine model of `RunFloat`'s loop body (YM7128B_pipe.c:1017-1043). -/
def FloatEngine {σ : Type} (step : σ → ℚ × ℚ → σ × (Fin 2 → Fin 2 → ℚ)) :
    EngineModel σ ℚ where
  prep := id
  dry := id
  step := fun s p =>
    let r := step s p
    (r.1, [[r.2 0 0, r.2 0 1], [r.2 1 0, r.2 1 1]])

/-- Engine model of `RunIdeal`'s loop body (YM7128B_pipe.c:1070-1094). -/
def IdealEngine {σ : Type} (step : σ → ℚ × ℚ → σ × (Fin 2 → ℚ)) :
    EngineModel σ ℚ where
  prep := id
  dry := id
  step := fun s p =>
    let r := step s p
    (r.1, [[r.2 0], [r.2 1]])

/-- Engine model of `RunShort`'s loop body (YM7128B_pipe.c:1121-1150). -/
def ShortEngine {σ : Type} (step : σ → ℤ × ℤ → σ × (Fin 2 → ℤ)) :
    EngineModel σ ℤ where
  prep := quantFixed
  dry := fun i => (i : ℚ) / (Fixed_Max : ℚ)
  step := fun s p =>
    let r := step s p
    (r.1, [[(r.2 0 : ℚ) / (Fixed_Max : ℚ)], [(r.2 1 : ℚ) / (Fixed_Max : ℚ)]])

/-- RunFixed (YM7128B_pipe.c:945): note only `dry`, `wet` and `regs` of the
configuration are used (no `rate`). -/
def RunFixed {σ : Type} (M : FixedChipModel σ) (fmt : SampleFormat)
    (args : Args ℚ) (ferr : Bool) (cap : Option ℕ) (stdin : List ℕ) :
    ℕ × List ℚ :=
  runLoop (FixedEngine M.step) args.dry args.wet fmt ferr (M.init args.regs) cap stdin

/-- RunFloat (YM7128B_pipe.c:1002); as `RunFixed`, `args.rate` is unused. -/
def RunFloat {σ : Type} (M : FloatChipModel σ) (fmt : SampleFormat)
    (args : Args ℚ) (ferr : Bool) (cap : Option ℕ) (stdin : List ℕ) :
    ℕ × List ℚ :=
  runLoop (FloatEngine M.step) args.dry args.wet fmt ferr (M.init args.regs) cap stdin

/-- RunIdeal (YM7128B_pipe.c:1054): `args.rate` configures the chip. -/
def RunIdeal {σ : Type} (M : IdealChipModel σ) (fmt : SampleFormat)
    (args : Args ℚ) (ferr : Bool) (cap : Option ℕ) (stdin : List ℕ) :
    ℕ × List ℚ :=
  runLoop (IdealEngine M.step) args.dry args.wet fmt ferr
    (M.init args.rate args.regs) cap stdin

/-- RunShort (YM7128B_pipe.c:1105). -/
def RunShort {σ : Type} (M : ShortChipModel σ) (fmt : SampleFormat)
    (args : Args ℚ) (ferr : Bool) (cap : Option ℕ) (stdin : List ℕ) :
    ℕ × List ℚ :=
  runLoop (ShortEngine M.step) args.dry args.wet fmt ferr
    (M.init args.rate args.regs) cap stdin

/-- Byte stream consisting of complete interleaved input ticks: per tick,
the raw bytes of the channel-0 sample followed by those of the channel-1
sample. -/
def ticksBytes (ts : List (List ℕ × List ℕ)) : List ℕ :=
  (ts.map (fun p => p.1 ++ p.2)).flatten

/-- Every tick consists of two complete samples of `size` bytes. -/
def goodTicks (size : ℕ) (ts : List (List ℕ × List ℕ)) : Prop :=
  ∀ p ∈ ts, p.1.length = size ∧ p.2.length = size

/-- Decoded per-tick sample values of a tick list. -/
def decTicks (fmt : SampleFormat) (ts : List (List ℕ × List ℕ)) : List (ℚ × ℚ) :=
  ts.map (fun p => (fmt.dec p.1, fmt.dec p.2))

/-- The U8 format row used for concrete instantiations. -/
def fmtU8 : SampleFormat :=
  ⟨1, Nat.one_pos, fun bs => ReadU8 (toIntN 8 (bs.headD 0))⟩

/-- The S16_LE format row used for concrete instantiations. -/
def fmtS16L : SampleFormat :=
  ⟨2, by omega, fun bs => ReadS16Lb (bs.headD 0) ((bs.drop 1).headD 0)⟩

/-- A trivial concrete Fixed-engine chip used to instantiate theorems:
stateless, echoes the mono input on every output slot. -/
def testFixedChip : FixedChipModel Unit :=
  ⟨fun _ => (), fun _ p => ((), fun _ _ => p.1)⟩

/-- A trivial concrete Ideal-engine chip used to instantiate theorems. -/
def testIdealChip : IdealChipModel Unit :=
  ⟨fun _ _ => (), fun _ p => ((), fun _ => p.1)⟩

/-- The register contents that the specification ascribes to the `direct`
preset: GL1, GR1, VM, VL, VR at 0x3F, all other registers zero. -/
def directRegsSpec : List ℤ :=
  (List.range 32).map
    (fun r => if r = 0 ∨ r = 8 ∨ r = 16 ∨ r = 18 ∨ r = 19 then 0x3F else 0)

/-- Two configurations that agree on everything except possibly the
configured sample rate. -/
def SameExceptRate {α : Type} (a b : Args α) : Prop :=
  a.fmtIdx = b.fmtIdx ∧ a.dry = b.dry ∧ a.wet = b.wet ∧
    a.chip_engine = b.chip_engine ∧ a.regs = b.regs

/-- Lift `SameExceptRate` to parse outcomes: equal exit codes, or
configurations that differ at most in the rate. -/
def outRel {α : Type} : ParseOut α → ParseOut α → Prop
  | .exit c, .exit c' => c = c'
  | .run a, .run b => SameExceptRate a b
  | _, _ => False

theorem truncQ_eq (x : ℚ) : truncQ x = if 0 ≤ x then ⌊x⌋ else ⌈x⌉ := by
  rcases le_or_lt 0 x with h | h
  · rw [if_pos h, Rat.floor_def, truncQ]
    exact Int.tdiv_eq_ediv (Rat.num_nonneg.mpr h) (by positivity)
  · rw [if_neg (not_le.mpr h)]
    have hx : truncQ x = -truncQ (-x) := by
      simp [truncQ, Rat.num_neg_eq_neg_num, Rat.den_neg_eq_den, Int.neg_tdiv]
    have h2 : truncQ (-x) = ⌊-x⌋ := by
      rw [Rat.floor_def, truncQ]
      refine Int.tdiv_eq_ediv ?_ (by positivity)
      rw [Rat.num_neg_eq_neg_num]
      have : x.num < 0 := Rat.num_neg.mpr h
      omega
    rw [hx, h2, Int.floor_neg, neg_neg]

theorem truncQ_intCast (m : ℤ) : truncQ (m : ℚ) = m := by
  rw [truncQ_eq]
  split <;> simp

theorem truncQ_bounds {a b : ℤ} {x : ℚ} (ha : a ≤ 0) (hb : 0 ≤ b)
    (h1 : (a : ℚ) ≤ x) (h2 : x ≤ (b : ℚ)) : a ≤ truncQ x ∧ truncQ x ≤ b := by
  rw [truncQ_eq]
  rcases le_or_lt 0 x with h | h
  · rw [if_pos h]
    refine ⟨le_trans ha (Int.le_floor.mpr (by push_cast; exact h)), ?_⟩
    have := Int.floor_le_floor h2
    simpa using this
  · rw [if_neg (not_le.mpr h)]
    refine ⟨?_, le_trans (Int.ceil_le.mpr (le_of_lt h)) hb⟩
    have := Int.ceil_le_ceil h1
    simpa using this

theorem truncQ_clamp (m lo hi : ℤ) :
    truncQ (min (max (m : ℚ) (lo : ℚ)) (hi : ℚ)) = min (max m lo) hi := by
  have h : min (max (m : ℚ) (lo : ℚ)) (hi : ℚ) = ((min (max m lo) hi : ℤ) : ℚ) := by
    push_cast
    rfl
  rw [h, truncQ_intCast]

theorem normBounds (H : ℤ) (hH : 0 < H) (v : ℤ) (h1 : -H ≤ v) (h2 : v < H) :
    -1 ≤ (v : ℚ) / (H : ℚ) ∧ (v : ℚ) / (H : ℚ) < 1 := by
  have hH' : (0 : ℚ) < (H : ℚ) := by exact_mod_cast hH
  constructor
  · rw [le_div_iff₀ hH']
    have : ((-H : ℤ) : ℚ) ≤ (v : ℚ) := by exact_mod_cast h1
    push_cast at this ⊢
    linarith
  · rw [div_lt_one hH']
    exact_mod_cast h2

theorem readU_wrap8 (u : ℕ) (h : u < 256) :
    wrapI 8 (toIntN 8 u + (-128)) = (u : ℤ) - 128 := by
  have h' : (u : ℤ) < 256 := by exact_mod_cast h
  have h0 : (0 : ℤ) ≤ (u : ℤ) := Int.natCast_nonneg u
  simp only [wrapI, toIntN]
  norm_num
  omega

theorem readU_wrap16 (u : ℕ) (h : u < 65536) :
    wrapI 16 (toIntN 16 u + (-32768)) = (u : ℤ) - 32768 := by
  have h' : (u : ℤ) < 65536 := by exact_mod_cast h
  have h0 : (0 : ℤ) ≤ (u : ℤ) := Int.natCast_nonneg u
  simp only [wrapI, toIntN]
  norm_num
  omega

theorem readU_wrap32 (u : ℕ) (h : u < 4294967296) :
    wrapI 32 (toIntN 32 u + (-2147483648)) = (u : ℤ) - 2147483648 := by
  have h' : (u : ℤ) < 4294967296 := by exact_mod_cast h
  have h0 : (0 : ℤ) ≤ (u : ℤ) := Int.natCast_nonneg u
  simp only [wrapI, toIntN]
  norm_num
  omega

theorem writeS8_int (m : ℤ) :
    truncQ (min (max (m : ℚ) (-128)) 127) = max (-128) (min 127 m) := by
  have h := truncQ_clamp m (-128) 127
  push_cast at h
  rw [h]
  omega

theorem writeS16_int (m : ℤ) :
    truncQ (min (max (m : ℚ) (-32768)) 32767) = max (-32768) (min 32767 m) := by
  have h := truncQ_clamp m (-32768) 32767
  push_cast at h
  rw [h]
  omega

theorem writeS32_int (m : ℤ) :
    truncQ (min (max (m : ℚ) (-2147483648)) 2147483647) =
      max (-2147483648) (min 2147483647 m) := by
  have h := truncQ_clamp m (-2147483648) 2147483647
  push_cast at h
  rw [h]
  omega

theorem writeS8_range (f : ℚ) :
    -128 ≤ WriteS8 f ∧ WriteS8 f ≤ 127 := by
  refine truncQ_bounds (by norm_num) (by norm_num) ?_ ?_
  · push_cast
    exact le_min (le_max_right _ _) (by norm_num)
  · push_cast
    exact min_le_right _ _

theorem writeS16_range (f : ℚ) :
    -32768 ≤ WriteS16 f ∧ WriteS16 f ≤ 32767 := by
  refine truncQ_bounds (by norm_num) (by norm_num) ?_ ?_
  · push_cast
    exact le_min (le_max_right _ _) (by norm_num)
  · push_cast
    exact min_le_right _ _

theorem writeS32_range (f : ℚ) :
    -2147483648 ≤ WriteS32 f ∧ WriteS32 f ≤ 2147483647 := by
  refine truncQ_bounds (by norm_num) (by norm_num) ?_ ?_
  · push_cast
    exact le_min (le_max_right _ _) (by norm_num)
  · push_cast
    exact min_le_right _ _

/-- C2: each signed integer format S{N} (N in 8, 16, 32) reads a stored
signed value v as v / 2^(N-1), which lies in [-1, +1); its writer maps a
float f whose scaled value f * 2^(N-1) is an integer m to m saturated
symmetrically to [-2^(N-1), 2^(N-1)-1]; the unsigned formats U{N} read a
stored unsigned value u as (u - 2^(N-1)) / 2^(N-1) (so the midpoint reads
as exactly 0) and write the signed result shifted by the midpoint. -/
theorem c2_sample_format_contract :
    (∀ v : ℤ, -128 ≤ v → v < 128 →
      ReadS8 v = (v : ℚ) / 128 ∧ -1 ≤ ReadS8 v ∧ ReadS8 v < 1) ∧
    (∀ v : ℤ, -32768 ≤ v → v < 32768 →
      ReadS16 v = (v : ℚ) / 32768 ∧ -1 ≤ ReadS16 v ∧ ReadS16 v < 1) ∧
    (∀ v : ℤ, -2147483648 ≤ v → v < 2147483648 →
      ReadS32 v = (v : ℚ) / 2147483648 ∧ -1 ≤ ReadS32 v ∧ ReadS32 v < 1) ∧
    (∀ (f : ℚ) (m : ℤ), f * 128 = (m : ℚ) →
      WriteS8 f = max (-128) (min 127 m)) ∧
    (∀ (f : ℚ) (m : ℤ), f * 32768 = (m : ℚ) →
      WriteS16 f = max (-32768) (min 32767 m)) ∧
    (∀ (f : ℚ) (m : ℤ), f * 2147483648 = (m : ℚ) →
      WriteS32 f = max (-2147483648) (min 2147483647 m)) ∧
    (∀ u : ℕ, u < 256 → ReadU8 (toIntN 8 u) = ((u : ℚ) - 128) / 128) ∧
    (∀ u : ℕ, u < 65536 → ReadU16 (toIntN 16 u) = ((u : ℚ) - 32768) / 32768) ∧
    (∀ u : ℕ, u < 4294967296 →
      ReadU32 (toIntN 32 u) = ((u : ℚ) - 2147483648) / 2147483648) ∧
    ReadU8 (toIntN 8 128) = 0 ∧
    ReadU16 (toIntN 16 32768) = 0 ∧
    ReadU32 (toIntN 32 2147483648) = 0 ∧
    (∀ f : ℚ, WriteU8 f = WriteS8 f + 128) ∧
    (∀ f : ℚ, WriteU16 f = WriteS16 f + 32768) ∧
    (∀ f : ℚ, WriteU32 f = WriteS32 f + 2147483648) := by
  have hU8 : ∀ u : ℕ, u < 256 → ReadU8 (toIntN 8 u) = ((u : ℚ) - 128) / 128 := by
    intro u h
    unfold ReadU8
    rw [readU_wrap8 u h]
    push_cast
    ring
  have hU16 : ∀ u : ℕ, u < 65536 →
      ReadU16 (toIntN 16 u) = ((u : ℚ) - 32768) / 32768 := by
    intro u h
    unfold ReadU16
    rw [readU_wrap16 u h]
    push_cast
    ring
  have hU32 : ∀ u : ℕ, u < 4294967296 →
      ReadU32 (toIntN 32 u) = ((u : ℚ) - 2147483648) / 2147483648 := by
    intro u h
    unfold ReadU32
    rw [readU_wrap32 u h]
    push_cast
    ring
  refine ⟨?_, ?_, ?_, ?_, ?_, ?_, hU8, hU16, hU32, ?_, ?_, ?_, ?_, ?_, ?_⟩
  · intro v h1 h2
    have hb := normBounds 128 (by norm_num) v (by omega) h2
    push_cast at hb
    exact ⟨rfl, hb.1, hb.2⟩
  · intro v h1 h2
    have hb := normBounds 32768 (by norm_num) v (by omega) h2
    push_cast at hb
    exact ⟨rfl, hb.1, hb.2⟩
  · intro v h1 h2
    have hb := normBounds 2147483648 (by norm_num) v (by omega) h2
    push_cast at hb
    exact ⟨rfl, hb.1, hb.2⟩
  · intro f m hf
    unfold WriteS8
    rw [hf, writeS8_int]
  · intro f m hf
    unfold WriteS16
    rw [hf, writeS16_int]
  · intro f m hf
    unfold WriteS32
    rw [hf, writeS32_int]
  · rw [hU8 128 (by norm_num)]
    norm_num
  · rw [hU16 32768 (by norm_num)]
    norm_num
  · rw [hU32 2147483648 (by norm_num)]
    norm_num
  · intro f
    have hr := writeS8_range f
    unfold WriteU8 WriteS8 at *
    simp only [wrapI]
    norm_num
    omega
  · intro f
    have hr := writeS16_range f
    unfold WriteU16 WriteS16 at *
    simp only [wrapI]
    norm_num
    omega
  · intro f
    have hr := writeS32_range f
    unfold WriteU32 WriteS32 at *
    simp only [wrapI]
    norm_num
    omega

/-- Witness for C2 at concrete inputs. -/
theorem c2_sample_format_contract_witness :
    ((-128 : ℤ) ≤ 64 ∧ (64 : ℤ) < 128 ∧
      (ReadS8 64 = (64 : ℚ) / 128 ∧ -1 ≤ ReadS8 64 ∧ ReadS8 64 < 1)) ∧
    ((200 : ℕ) < 256 ∧ ReadU8 (toIntN 8 200) = ((200 : ℚ) - 128) / 128) :=
  ⟨⟨by decide, by decide,
    c2_sample_format_contract.1 64 (by decide) (by decide)⟩,
   ⟨by decide,
    (c2_sample_format_contract.2.2.2.2.2.2.1) 200 (by decide)⟩⟩

theorem toInt8_facts (b : ℕ) (hb : b < 256) :
    -128 ≤ toIntN 8 b ∧ toIntN 8 b ≤ 127 ∧ toIntN 8 b % 256 = b := by
  have hb' : (b : ℤ) < 256 := by exact_mod_cast hb
  have h0 : (0 : ℤ) ≤ (b : ℤ) := Int.natCast_nonneg b
  simp only [toIntN, wrapI]
  norm_num
  omega

theorem toInt16_facts (u : ℕ) (hu : u < 65536) :
    -32768 ≤ toIntN 16 u ∧ toIntN 16 u ≤ 32767 ∧ toIntN 16 u % 65536 = u := by
  have hu' : (u : ℤ) < 65536 := by exact_mod_cast hu
  have h0 : (0 : ℤ) ≤ (u : ℤ) := Int.natCast_nonneg u
  simp only [toIntN, wrapI]
  norm_num
  omega

theorem writeS8_of_byte (v : ℤ) (h1 : -128 ≤ v) (h2 : v ≤ 127) :
    WriteS8 ((v : ℚ) / 128) = v := by
  unfold WriteS8
  have hmul : (v : ℚ) / 128 * 128 = (v : ℚ) := div_mul_cancel₀ _ (by norm_num)
  rw [hmul]
  have hmax : max ((v : ℚ)) (-128) = (v : ℚ) :=
    max_eq_left (by exact_mod_cast h1)
  have hmin : min ((v : ℚ)) (127 : ℚ) = (v : ℚ) :=
    min_eq_left (by exact_mod_cast h2)
  rw [hmax, hmin, truncQ_intCast]

theorem writeS16_of_val (v : ℤ) (h1 : -32768 ≤ v) (h2 : v ≤ 32767) :
    WriteS16 ((v : ℚ) / 32768) = v := by
  unfold WriteS16
  have hmul : (v : ℚ) / 32768 * 32768 = (v : ℚ) := div_mul_cancel₀ _ (by norm_num)
  rw [hmul]
  have hmax : max ((v : ℚ)) (-32768) = (v : ℚ) :=
    max_eq_left (by exact_mod_cast h1)
  have hmin : min ((v : ℚ)) (32767 : ℚ) = (v : ℚ) :=
    min_eq_left (by exact_mod_cast h2)
  rw [hmax, hmin, truncQ_intCast]

/-- C9: the signed-format writer composed with the signed-format reader is
the identity at the raw byte level, for S8 (every byte) and S16_LE (every
little-endian byte pair). -/
theorem c9_signed_roundtrip :
    (∀ b : ℕ, b < 256 → WriteS8b (ReadS8b b) = b) ∧
    (∀ b0 b1 : ℕ, b0 < 256 → b1 < 256 →
      WriteS16Lb (ReadS16Lb b0 b1) = (b0, b1)) := by
  constructor
  · intro b hb
    obtain ⟨h1, h2, h3⟩ := toInt8_facts b hb
    unfold WriteS8b ReadS8b ReadS8
    rw [writeS8_of_byte (toIntN 8 b) h1 h2]
    omega
  · intro b0 b1 hb0 hb1
    have hu : b0 + 256 * b1 < 65536 := by omega
    obtain ⟨h1, h2, h3⟩ := toInt16_facts (b0 + 256 * b1) hu
    unfold WriteS16Lb ReadS16Lb ReadS16
    rw [writeS16_of_val (toIntN 16 (b0 + 256 * b1)) h1 h2]
    have hval : (toIntN 16 (b0 + 256 * b1) % 65536).toNat = b0 + 256 * b1 := by
      omega
    rw [hval]
    show ((b0 + 256 * b1) % 256, (b0 + 256 * b1) / 256) = (b0, b1)
    have e0 : (b0 + 256 * b1) % 256 = b0 := by omega
    have e1 : (b0 + 256 * b1) / 256 = b1 := by omega
    rw [e0, e1]

/-- Witness for C9 at concrete bytes. -/
theorem c9_signed_roundtrip_witness :
    ((200 : ℕ) < 256 ∧ WriteS8b (ReadS8b 200) = 200) ∧
    ((52 : ℕ) < 256 ∧ (250 : ℕ) < 256 ∧
      WriteS16Lb (ReadS16Lb 52 250) = (52, 250)) :=
  ⟨⟨by decide, c9_signed_roundtrip.1 200 (by decide)⟩,
   ⟨by decide, by decide, c9_signed_roundtrip.2 52 250 (by decide) (by decide)⟩⟩



theorem readSample_append (fmt : SampleFormat) (blk rest : List ℕ)
    (h : blk.length = fmt.size) :
    readSample fmt (blk ++ rest) = some (fmt.dec blk, rest) := by
  unfold readSample
  rw [if_pos (by simp [← h])]
  rw [← h, List.take_left, List.drop_left]

theorem readSample_short (fmt : SampleFormat) (stdin : List ℕ)
    (h : stdin.length < fmt.size) : readSample fmt stdin = none := by
  unfold readSample
  rw [if_neg (by omega)]

theorem readSample_some (fmt : SampleFormat) (stdin : List ℕ) (p : ℚ × List ℕ)
    (h : readSample fmt stdin = some p) :
    fmt.size ≤ stdin.length ∧ p.2.length = stdin.length - fmt.size := by
  unfold readSample at h
  split at h
  next hle => cases h; exact ⟨hle, by simp⟩
  next => cases h

theorem runLoopF_congr {σ ι : Type} (E : EngineModel σ ι) (dryM wetM : ℚ)
    (fmt : SampleFormat) (ferr : Bool) :
    ∀ (f g : ℕ) (s : σ) (cap : Option ℕ) (stdin : List ℕ),
      stdin.length < f → stdin.length < g →
      runLoopF E dryM wetM fmt ferr f s cap stdin
        = runLoopF E dryM wetM fmt ferr g s cap stdin := by
  intro f
  induction f with
  | zero => intro g s cap stdin hf hg; omega
  | succ f ih =>
    intro g s cap stdin hf hg
    match g, hg with
    | g + 1, hg =>
    cases h0 : readSample fmt stdin with
    | none => simp [runLoopF, h0]
    | some p =>
      obtain ⟨v0, rest0⟩ := p
      cases h1 : readSample fmt rest0 with
      | none => simp [runLoopF, h0, h1]
      | some q =>
        obtain ⟨v1, rest1⟩ := q
        have hl0 := readSample_some fmt stdin _ h0
        have hl1 := readSample_some fmt rest0 _ h1
        have hsz := fmt.size_pos
        have hrec : rest1.length < f ∧ rest1.length < g := by
          simp only at hl0 hl1
          omega
        cases cap with
        | none =>
          simp only [runLoopF, h0, h1]
          rw [ih g _ _ _ hrec.1 hrec.2]
        | some n =>
          simp only [runLoopF, h0, h1]
          split
          · rw [ih g _ _ _ hrec.1 hrec.2]
          · rfl


theorem runLoop_read_none {σ ι : Type} (E : EngineModel σ ι) (dryM wetM : ℚ)
    (fmt : SampleFormat) (ferr : Bool) (s : σ) (cap : Option ℕ) (stdin : List ℕ)
    (h0 : readSample fmt stdin = none) :
    runLoop E dryM wetM fmt ferr s cap stdin = (if ferr then 1 else 0, []) := by
  unfold runLoop
  simp [runLoopF, h0]

theorem runLoop_mid_none {σ ι : Type} (E : EngineModel σ ι) (dryM wetM : ℚ)
    (fmt : SampleFormat) (ferr : Bool) (s : σ) (cap : Option ℕ) (stdin : List ℕ)
    (v0 : ℚ) (rest0 : List ℕ)
    (h0 : readSample fmt stdin = some (v0, rest0))
    (h1 : readSample fmt rest0 = none) :
    runLoop E dryM wetM fmt ferr s cap stdin = (if ferr then 1 else 0, []) := by
  unfold runLoop
  simp [runLoopF, h0, h1]

theorem runLoop_step {σ ι : Type} (E : EngineModel σ ι) (dryM wetM : ℚ)
    (fmt : SampleFormat) (ferr : Bool) (s : σ) (stdin : List ℕ)
    (v0 v1 : ℚ) (rest0 rest1 : List ℕ)
    (h0 : readSample fmt stdin = some (v0, rest0))
    (h1 : readSample fmt rest0 = some (v1, rest1)) :
    runLoop E dryM wetM fmt ferr s none stdin
      = ((runLoop E dryM wetM fmt ferr (tickPairs E s v0 v1).1 none rest1).1,
         (tickPairs E s v0 v1).2.map (mix dryM wetM)
           ++ (runLoop E dryM wetM fmt ferr (tickPairs E s v0 v1).1 none rest1).2) := by
  have hl0 := readSample_some fmt stdin _ h0
  have hl1 := readSample_some fmt rest0 _ h1
  have hsz := fmt.size_pos
  simp only at hl0 hl1
  show runLoopF E dryM wetM fmt ferr (stdin.length + 1) s none stdin
    = ((runLoopF E dryM wetM fmt ferr (rest1.length + 1) (tickPairs E s v0 v1).1 none rest1).1,
       (tickPairs E s v0 v1).2.map (mix dryM wetM)
         ++ (runLoopF E dryM wetM fmt ferr (rest1.length + 1) (tickPairs E s v0 v1).1 none rest1).2)
  rw [runLoopF_congr E dryM wetM fmt ferr (rest1.length + 1) stdin.length
    (tickPairs E s v0 v1).1 none rest1 (by omega) (by omega)]
  simp only [runLoopF, h0, h1]

theorem runLoop_step_cap {σ ι : Type} (E : EngineModel σ ι) (dryM wetM : ℚ)
    (fmt : SampleFormat) (ferr : Bool) (s : σ) (stdin : List ℕ) (n : ℕ)
    (v0 v1 : ℚ) (rest0 rest1 : List ℕ)
    (h0 : readSample fmt stdin = some (v0, rest0))
    (h1 : readSample fmt rest0 = some (v1, rest1))
    (hn : ((tickPairs E s v0 v1).2.map (mix dryM wetM)).length ≤ n) :
    runLoop E dryM wetM fmt ferr s (some n) stdin
      = ((runLoop E dryM wetM fmt ferr (tickPairs E s v0 v1).1
            (some (n - ((tickPairs E s v0 v1).2.map (mix dryM wetM)).length)) rest1).1,
         (tickPairs E s v0 v1).2.map (mix dryM wetM)
           ++ (runLoop E dryM wetM fmt ferr (tickPairs E s v0 v1).1
                (some (n - ((tickPairs E s v0 v1).2.map (mix dryM wetM)).length)) rest1).2) := by
  have hl0 := readSample_some fmt stdin _ h0
  have hl1 := readSample_some fmt rest0 _ h1
  have hsz := fmt.size_pos
  simp only at hl0 hl1
  show runLoopF E dryM wetM fmt ferr (stdin.length + 1) s (some n) stdin
    = ((runLoopF E dryM wetM fmt ferr (rest1.length + 1) (tickPairs E s v0 v1).1
          (some (n - ((tickPairs E s v0 v1).2.map (mix dryM wetM)).length)) rest1).1,
       (tickPairs E s v0 v1).2.map (mix dryM wetM)
         ++ (runLoopF E dryM wetM fmt ferr (rest1.length + 1) (tickPairs E s v0 v1).1
              (some (n - ((tickPairs E s v0 v1).2.map (mix dryM wetM)).length)) rest1).2)
  rw [runLoopF_congr E dryM wetM fmt ferr (rest1.length + 1) stdin.length
    (tickPairs E s v0 v1).1 (some (n - ((tickPairs E s v0 v1).2.map (mix dryM wetM)).length))
    rest1 (by omega) (by omega)]
  simp only [runLoopF, h0, h1]
  rw [if_pos hn]

theorem runLoop_step_capfail {σ ι : Type} (E : EngineModel σ ι) (dryM wetM : ℚ)
    (fmt : SampleFormat) (ferr : Bool) (s : σ) (stdin : List ℕ) (n : ℕ)
    (v0 v1 : ℚ) (rest0 rest1 : List ℕ)
    (h0 : readSample fmt stdin = some (v0, rest0))
    (h1 : readSample fmt rest0 = some (v1, rest1))
    (hn : n < ((tickPairs E s v0 v1).2.map (mix dryM wetM)).length) :
    runLoop E dryM wetM fmt ferr s (some n) stdin
      = (1, ((tickPairs E s v0 v1).2.map (mix dryM wetM)).take n) := by
  unfold runLoop
  simp only [runLoopF, h0, h1]
  rw [if_neg (by omega)]


theorem ticksBytes_cons (t : List ℕ × List ℕ) (ts : List (List ℕ × List ℕ)) :
    ticksBytes (t :: ts) = t.1 ++ (t.2 ++ ticksBytes ts) := by
  simp [ticksBytes]

theorem pairTrace_cons (E : EngineModel σ ι) (s : σ) (v : ℚ × ℚ) (vs : List (ℚ × ℚ)) :
    pairTrace E s (v :: vs)
      = (tickPairs E s v.1 v.2).2 ++ pairTrace E (tickPairs E s v.1 v.2).1 vs := rfl

theorem runLoop_ticks {σ ι : Type} (E : EngineModel σ ι) (dryM wetM : ℚ)
    (fmt : SampleFormat) (ferr : Bool) :
    ∀ (ts : List (List ℕ × List ℕ)) (s : σ), goodTicks fmt.size ts →
      runLoop E dryM wetM fmt ferr s none (ticksBytes ts)
        = (if ferr then 1 else 0, (pairTrace E s (decTicks fmt ts)).map (mix dryM wetM)) := by
  intro ts
  induction ts with
  | nil =>
    intro s _
    have h0 : readSample fmt (ticksBytes []) = none := by
      apply readSample_short
      simpa [ticksBytes] using fmt.size_pos
    rw [runLoop_read_none _ _ _ _ _ _ _ _ h0]
    simp [pairTrace, decTicks]
  | cons t ts ih =>
    intro s hg
    obtain ⟨ht1, ht2⟩ := hg t (List.mem_cons_self t ts)
    have h0 : readSample fmt (ticksBytes (t :: ts)) = some (fmt.dec t.1, t.2 ++ ticksBytes ts) := by
      rw [ticksBytes_cons]
      exact readSample_append fmt t.1 _ ht1
    have h1 : readSample fmt (t.2 ++ ticksBytes ts) = some (fmt.dec t.2, ticksBytes ts) :=
      readSample_append fmt t.2 _ ht2
    rw [runLoop_step E dryM wetM fmt ferr s _ _ _ _ _ h0 h1]
    rw [ih _ (fun p hp => hg p (List.mem_cons_of_mem t hp))]
    simp only [decTicks, List.map_cons, pairTrace_cons]
    simp [List.map_append]


theorem tickPairs_fixed_len {σ : Type} (step : σ → ℤ × ℤ → σ × (Fin 2 → Fin 2 → ℤ))
    (s : σ) (v0 v1 : ℚ) : (tickPairs (FixedEngine step) s v0 v1).2.length = 4 := rfl

theorem tickPairs_float_len {σ : Type} (step : σ → ℚ × ℚ → σ × (Fin 2 → Fin 2 → ℚ))
    (s : σ) (v0 v1 : ℚ) : (tickPairs (FloatEngine step) s v0 v1).2.length = 4 := rfl

theorem tickPairs_ideal_len {σ : Type} (step : σ → ℚ × ℚ → σ × (Fin 2 → ℚ))
    (s : σ) (v0 v1 : ℚ) : (tickPairs (IdealEngine step) s v0 v1).2.length = 2 := rfl

theorem tickPairs_short_len {σ : Type} (step : σ → ℤ × ℤ → σ × (Fin 2 → ℤ))
    (s : σ) (v0 v1 : ℚ) : (tickPairs (ShortEngine step) s v0 v1).2.length = 2 := rfl

theorem pairTrace_length {σ ι : Type} (E : EngineModel σ ι) (K : ℕ)
    (hk : ∀ (s : σ) (v0 v1 : ℚ), (tickPairs E s v0 v1).2.length = K) :
    ∀ (vs : List (ℚ × ℚ)) (s : σ), (pairTrace E s vs).length = K * vs.length := by
  intro vs
  induction vs with
  | nil => intro s; simp [pairTrace]
  | cons v vs ih =>
    intro s
    rw [pairTrace_cons]
    simp [hk, ih, Nat.mul_succ, Nat.mul_add]
    ring

theorem pairTrace_ignores_second {σ ι : Type} (E : EngineModel σ ι)
    (hig : ∀ (s : σ) (a b b' : ι), E.step s (a, b) = E.step s (a, b')) :
    ∀ (vs vs' : List (ℚ × ℚ)) (s : σ), vs.map Prod.fst = vs'.map Prod.fst →
      pairTrace E s vs = pairTrace E s vs' := by
  intro vs
  induction vs with
  | nil =>
    intro vs' s h
    cases vs' with
    | nil => rfl
    | cons v vs' => simp at h
  | cons v vs ih =>
    intro vs' s h
    cases vs' with
    | nil => simp at h
    | cons w ws =>
      simp only [List.map_cons, List.cons.injEq] at h
      have htick : tickPairs E s v.1 v.2 = tickPairs E s w.1 w.2 := by
        unfold tickPairs
        rw [← h.1, hig s (E.prep v.1) (E.prep v.2) (E.prep w.2)]
      rw [pairTrace_cons, pairTrace_cons, htick, ih ws _ h.2]

theorem runLoopF_eof_exit_zero {σ ι : Type} (E : EngineModel σ ι) (dryM wetM : ℚ)
    (fmt : SampleFormat) :
    ∀ (f : ℕ) (s : σ) (stdin : List ℕ),
      (runLoopF E dryM wetM fmt false f s none stdin).1 = 0 := by
  intro f
  induction f with
  | zero => intro s stdin; rfl
  | succ f ih =>
    intro s stdin
    cases h0 : readSample fmt stdin with
    | none => simp [runLoopF, h0]
    | some p =>
      obtain ⟨v0, rest0⟩ := p
      cases h1 : readSample fmt rest0 with
      | none => simp [runLoopF, h0, h1]
      | some q =>
        obtain ⟨v1, rest1⟩ := q
        simp [runLoopF, h0, h1, ih]

theorem runLoopF_ferr_exit_one {σ ι : Type} (E : EngineModel σ ι) (dryM wetM : ℚ)
    (fmt : SampleFormat) :
    ∀ (f : ℕ) (s : σ) (stdin : List ℕ), stdin.length < f →
      (runLoopF E dryM wetM fmt true f s none stdin).1 = 1 := by
  intro f
  induction f with
  | zero => intro s stdin h; omega
  | succ f ih =>
    intro s stdin hf
    cases h0 : readSample fmt stdin with
    | none => simp [runLoopF, h0]
    | some p =>
      obtain ⟨v0, rest0⟩ := p
      cases h1 : readSample fmt rest0 with
      | none => simp [runLoopF, h0, h1]
      | some q =>
        obtain ⟨v1, rest1⟩ := q
        have hl0 := readSample_some fmt stdin _ h0
        have hl1 := readSample_some fmt rest0 _ h1
        have hsz := fmt.size_pos
        simp only at hl0 hl1
        have : rest1.length < f := by omega
        simp [runLoopF, h0, h1, ih _ rest1 this]

theorem runLoop_cap_exceeded {σ ι : Type} (E : EngineModel σ ι) (dryM wetM : ℚ)
    (fmt : SampleFormat) (ferr : Bool) :
    ∀ (ts : List (List ℕ × List ℕ)) (s : σ) (n : ℕ), goodTicks fmt.size ts →
      n < (pairTrace E s (decTicks fmt ts)).length →
      (runLoop E dryM wetM fmt ferr s (some n) (ticksBytes ts)).1 = 1 := by
  intro ts
  induction ts with
  | nil => intro s n _ h; simp [pairTrace, decTicks] at h
  | cons t ts ih =>
    intro s n hg hn
    obtain ⟨ht1, ht2⟩ := hg t (List.mem_cons_self t ts)
    have h0 : readSample fmt (ticksBytes (t :: ts)) = some (fmt.dec t.1, t.2 ++ ticksBytes ts) := by
      rw [ticksBytes_cons]
      exact readSample_append fmt t.1 _ ht1
    have h1 : readSample fmt (t.2 ++ ticksBytes ts) = some (fmt.dec t.2, ticksBytes ts) :=
      readSample_append fmt t.2 _ ht2
    simp only [decTicks, List.map_cons, pairTrace_cons, List.length_append] at hn
    by_cases hcap : ((tickPairs E s (fmt.dec t.1) (fmt.dec t.2)).2.map (mix dryM wetM)).length ≤ n
    · rw [runLoop_step_cap E dryM wetM fmt ferr s _ n _ _ _ _ h0 h1 hcap]
      simp only
      refine ih _ _ (fun p hp => hg p (List.mem_cons_of_mem t hp)) ?_
      simp only [decTicks, List.length_map] at hn hcap ⊢
      omega
    · rw [runLoop_step_capfail E dryM wetM fmt ferr s _ n _ _ _ _ h0 h1 (by omega)]

theorem tableFind_eq_none {β : Type} (tbl : List (String × β)) (label : String)
    (h : ∀ p ∈ tbl, p.1 ≠ label) : tableFind tbl label = none := by
  have hf : List.find? (fun p => p.1 == label) tbl = none :=
    List.find?_eq_none.mpr (fun p hp => by simpa using h p hp)
  simp [tableFind, hf]

/-- C1: the driver's `--regdump` handling is broken: `HexToByte` performs
the left shift after OR-ing each digit, so the pair "01" decodes to 0x10
(16) instead of the byte 0x01 — register 0 receives 0x10 below.  The
zero-fill of the remaining registers and the exit-1 error path for non-hex
characters do work as claimed (established inside `c5_exit_codes`). -/
theorem c1_regdump_eval :
    HexToByte '0' '1' = (16, false) ∧
    parseLoop (fun _ => (0 : ℚ)) defaultArgs false ["--regdump", "01"]
      = .run { defaultArgs with regs := (16 : ℤ) :: List.replicate 31 0 } ∧
    (16 : ℤ) ≠ 0x01 := by
  refine ⟨by decide, by decide, by decide⟩

/-- C10: a last argument that is neither `-h` nor `--help` and stands in
option position makes the scan print the "Expecting binary argument"
diagnostic and return 1, whatever the argument is, before any handler
interprets it. -/
theorem c10_trailing_argument {α : Type} [Zero α] (powConv : ℤ → α)
    (a : Args α) (e : Bool) (x : String)
    (h1 : x ≠ "-h") (h2 : x ≠ "--help") :
    parseLoop powConv a e [x] = .exit 1 := by
  simp [parseLoop, h1, h2]

/-- Witness for C10: a binary option given without a value. -/
theorem c10_trailing_argument_witness :
    ("--dry" ≠ "-h") ∧ ("--dry" ≠ "--help") ∧
    parseLoop (fun _ => (0 : ℚ)) defaultArgs false ["--dry"] = .exit 1 :=
  ⟨by decide, by decide,
   c10_trailing_argument _ defaultArgs false "--dry" (by decide) (by decide)⟩

/-- C7: the preset table has exactly 19 named entries; its `direct` entry
sets GL1 (address 0), GR1 (8), VM (16), VL (18) and VR (19) to 0x3F and
every other of the 32 registers — including T1 at address 23 — to 0x00;
and `--preset direct` copies exactly those 32 values into the register
array of the scanned configuration. -/
theorem c7_preset_direct :
    PRESET_TABLE.length = 19 ∧
    tableFind REGISTER_TABLE "GL1" = some 0 ∧
    tableFind REGISTER_TABLE "GR1" = some 8 ∧
    tableFind REGISTER_TABLE "VM" = some 16 ∧
    tableFind REGISTER_TABLE "VL" = some 18 ∧
    tableFind REGISTER_TABLE "VR" = some 19 ∧
    tableFind REGISTER_TABLE "T1" = some 23 ∧
    tableFind PRESET_TABLE "direct" = some directRegsSpec ∧
    (∀ (α : Type) [Zero α] (powConv : ℤ → α) (a : Args α) (rest : List String),
      parseLoop powConv a false ("--preset" :: "direct" :: rest)
        = parseLoop powConv { a with regs := directRegsSpec } false rest) := by
  refine ⟨by decide, by decide, by decide, by decide, by decide, by decide, by decide,
    by decide, ?_⟩
  intro α _inst powConv a rest
  rfl

theorem HexToByte_errno (c0 c1 : Char) :
    (HexToByte c0 c1).2 = true ↔ hexDigitVal c0 = none ∨ hexDigitVal c1 = none := by
  unfold HexToByte
  rcases h0 : hexDigitVal c0 with _ | d0 <;> rcases h1 : hexDigitVal c1 with _ | d1 <;>
    simp [h0, h1]

theorem regdumpGo_none :
    ∀ (ps : List (Char × Char)) (r : ℕ) (regs : List ℤ),
      (∃ p ∈ ps, (HexToByte p.1 p.2).2 = true) →
      regdumpGo false r regs ps = none := by
  intro ps
  induction ps with
  | nil => simp
  | cons p ps ih =>
    intro r regs h
    unfold regdumpGo
    cases hb : (HexToByte p.1 p.2).2 with
    | true => simp [hb]
    | false =>
      simp only [hb, Bool.or_false, Bool.false_or, if_neg]
      rcases h with ⟨q, hq, hflag⟩
      rcases List.mem_cons.mp hq with rfl | hq2
      · rw [hb] at hflag
        cases hflag
      · simp only [Bool.false_eq_true, if_false]
        exact ih (r + 1) _ ⟨q, hq2, hflag⟩

/-- C5 counterexample: `--reg-GL1 zz` presents a malformed hexadecimal
register value, yet the scan accepts it instead of exiting with code 1:
`strtol(.., 16)` consumes no digits, returns 0 without touching `errno`,
and 0 passes the range check, so register GL1 is (re)stored as 0 and the
scan completes normally. -/
theorem c5_counterexample :
    parseLoop (fun _ => (0 : ℚ)) defaultArgs false ["--reg-GL1", "zz"]
      = .run defaultArgs := by decide

/-- C5 (amended): scanning left to right, `-h`/`--help` exits 0 from any
reached state; unknown format, engine, preset, register and switch names
exit 1; a rate that is unparsable-or-below-1 exits 1; a `--reg-` value
outside [0x00, 0xFF] exits 1; a `--regdump` string with a non-hex
character among its examined positions exits 1; but a `--reg-` value whose
text has no parsable hex digits is accepted as 0 (no exit), contrary to
the original claim. -/
theorem c5_exit_codes {α : Type} [Zero α] (powConv : ℤ → α) :
    (∀ (a : Args α) (e : Bool) (rest : List String),
      parseLoop powConv a e ("-h" :: rest) = .exit 0 ∧
      parseLoop powConv a e ("--help" :: rest) = .exit 0) ∧
    (∀ (a : Args α) (e : Bool) (x v : String) (rest : List String),
      (x = "-f" ∨ x = "--format") → v ∉ FORMAT_LABELS →
      parseLoop powConv a e (x :: v :: rest) = .exit 1) ∧
    (∀ (a : Args α) (e : Bool) (x v : String) (rest : List String),
      (x = "-e" ∨ x = "--engine") → v ∉ MODE_TABLE.map Prod.fst →
      parseLoop powConv a e (x :: v :: rest) = .exit 1) ∧
    (∀ (a : Args α) (e : Bool) (v : String) (rest : List String),
      v ∉ PRESET_TABLE.map Prod.fst →
      parseLoop powConv a e ("--preset" :: v :: rest) = .exit 1) ∧
    (∀ (a : Args α) (e : Bool) (x v : String) (rest : List String),
      x.data.take 6 = "--reg-".data →
      tableFind REGISTER_TABLE (String.mk (x.data.drop 6)) = none →
      parseLoop powConv a e (x :: v :: rest) = .exit 1) ∧
    (∀ (a : Args α) (e : Bool) (x v : String) (rest : List String) (w : ℤ) (er : Bool),
      (x = "-r" ∨ x = "--rate") → strtol 10 v = (w, er) → (er = true ∨ w < 1) →
      parseLoop powConv a e (x :: v :: rest) = .exit 1) ∧
    (∀ (a : Args α) (e : Bool) (x v : String) (rest : List String) (r : ℕ) (w : ℤ),
      x.data.take 6 = "--reg-".data →
      tableFind REGISTER_TABLE (String.mk (x.data.drop 6)) = some r →
      strtol 16 v = (w, false) → (w < 0 ∨ 255 < w) →
      parseLoop powConv a e (x :: v :: rest) = .exit 1) ∧
    (∀ (a : Args α) (v : String) (rest : List String),
      (∃ p ∈ chunkPairs (v.data.take (2 * min (v.data.length / 2) 32)),
        hexDigitVal p.1 = none ∨ hexDigitVal p.2 = none) →
      parseLoop powConv a false ("--regdump" :: v :: rest) = .exit 1) ∧
    (∀ (a : Args α) (e : Bool) (x v : String) (rest : List String),
      x ∉ (["-h", "--help", "--dry", "-f", "--format", "-e", "--engine",
            "--preset", "-r", "--rate", "--regdump", "--wet"] : List String) →
      x.data.take 6 ≠ "--reg-".data →
      parseLoop powConv a e (x :: v :: rest) = .exit 1) ∧
    (∀ (a : Args α) (x v : String) (rest : List String) (r : ℕ),
      x.data.take 6 = "--reg-".data →
      tableFind REGISTER_TABLE (String.mk (x.data.drop 6)) = some r →
      strtol 16 v = (0, false) →
      parseLoop powConv a false (x :: v :: rest)
        = parseLoop powConv { a with regs := a.regs.set r 0 } false rest) := by
  refine ⟨?_, ?_, ?_, ?_, ?_, ?_, ?_, ?_, ?_, ?_⟩
  · intro a e rest
    constructor <;> (unfold parseLoop; rfl)
  · intro a e x v rest hx hv
    have hfind : FORMAT_LABELS.findIdx? (· == v) = none := by
      rw [List.findIdx?_eq_none_iff]
      intro y hy
      simp only [beq_eq_false_iff_ne, ne_eq]
      exact fun he => hv (he ▸ hy)
    rcases hx with rfl | rfl <;> simp [parseLoop, hfind]
  · intro a e x v rest hx hv
    have hfind : tableFind MODE_TABLE v = none :=
      tableFind_eq_none _ _ (fun p hp he => hv (he ▸ List.mem_map_of_mem Prod.fst hp))
    rcases hx with rfl | rfl <;> simp [parseLoop, hfind]
  · intro a e v rest hv
    have hfind : tableFind PRESET_TABLE v = none :=
      tableFind_eq_none _ _ (fun p hp he => hv (he ▸ List.mem_map_of_mem Prod.fst hp))
    simp [parseLoop, hfind]
  · intro a e x v rest htake hname
    have hx1 : x ≠ "-h" := fun he => absurd (he ▸ htake) (by decide)
    have hx2 : x ≠ "--help" := fun he => absurd (he ▸ htake) (by decide)
    have hx3 : x ≠ "--dry" := fun he => absurd (he ▸ htake) (by decide)
    have hx4 : x ≠ "-f" := fun he => absurd (he ▸ htake) (by decide)
    have hx5 : x ≠ "--format" := fun he => absurd (he ▸ htake) (by decide)
    have hx6 : x ≠ "-e" := fun he => absurd (he ▸ htake) (by decide)
    have hx7 : x ≠ "--engine" := fun he => absurd (he ▸ htake) (by decide)
    have hx8 : x ≠ "--preset" := fun he => absurd (he ▸ htake) (by decide)
    have hx9 : x ≠ "-r" := fun he => absurd (he ▸ htake) (by decide)
    have hx10 : x ≠ "--rate" := fun he => absurd (he ▸ htake) (by decide)
    simp [parseLoop, htake, hname, hx1, hx2, hx3, hx4, hx5, hx6, hx7, hx8, hx9, hx10]
  · intro a e x v rest w er hx hv hlt
    rcases hx with rfl | rfl <;> rcases hlt with rfl | hlt <;>
      simp [parseLoop, hv, *]
  · intro a e x v rest r w htake hname hv hw
    have hx1 : x ≠ "-h" := fun he => absurd (he ▸ htake) (by decide)
    have hx2 : x ≠ "--help" := fun he => absurd (he ▸ htake) (by decide)
    have hx3 : x ≠ "--dry" := fun he => absurd (he ▸ htake) (by decide)
    have hx4 : x ≠ "-f" := fun he => absurd (he ▸ htake) (by decide)
    have hx5 : x ≠ "--format" := fun he => absurd (he ▸ htake) (by decide)
    have hx6 : x ≠ "-e" := fun he => absurd (he ▸ htake) (by decide)
    have hx7 : x ≠ "--engine" := fun he => absurd (he ▸ htake) (by decide)
    have hx8 : x ≠ "--preset" := fun he => absurd (he ▸ htake) (by decide)
    have hx9 : x ≠ "-r" := fun he => absurd (he ▸ htake) (by decide)
    have hx10 : x ≠ "--rate" := fun he => absurd (he ▸ htake) (by decide)
    rcases hw with hw | hw <;>
      simp [parseLoop, htake, hname, hv, hw, hx1, hx2, hx3, hx4, hx5, hx6, hx7,
        hx8, hx9, hx10]
  · intro a v rest hex
    have hflag : ∃ p ∈ chunkPairs (v.data.take (2 * min (v.data.length / 2) 32)),
        (HexToByte p.1 p.2).2 = true := by
      rcases hex with ⟨p, hp, hbad⟩
      exact ⟨p, hp, (HexToByte_errno p.1 p.2).mpr hbad⟩
    have happ : regdumpApply false v.data a.regs = none := by
      simp only [regdumpApply]
      rw [regdumpGo_none _ 0 a.regs hflag]
    simp [parseLoop, happ]
  · intro a e x v rest hks htake
    simp only [List.mem_cons, List.not_mem_nil, or_false, not_or] at hks
    obtain ⟨k1, k2, k3, k4, k5, k6, k7, k8, k9, k10, k11, k12⟩ := hks
    simp [parseLoop, k1, k2, k3, k4, k5, k6, k7, k8, k9, k10, k11, k12, htake]
  · intro a x v rest r htake hname hv
    have hx1 : x ≠ "-h" := fun he => absurd (he ▸ htake) (by decide)
    have hx2 : x ≠ "--help" := fun he => absurd (he ▸ htake) (by decide)
    have hx3 : x ≠ "--dry" := fun he => absurd (he ▸ htake) (by decide)
    have hx4 : x ≠ "-f" := fun he => absurd (he ▸ htake) (by decide)
    have hx5 : x ≠ "--format" := fun he => absurd (he ▸ htake) (by decide)
    have hx6 : x ≠ "-e" := fun he => absurd (he ▸ htake) (by decide)
    have hx7 : x ≠ "--engine" := fun he => absurd (he ▸ htake) (by decide)
    have hx8 : x ≠ "--preset" := fun he => absurd (he ▸ htake) (by decide)
    have hx9 : x ≠ "-r" := fun he => absurd (he ▸ htake) (by decide)
    have hx10 : x ≠ "--rate" := fun he => absurd (he ▸ htake) (by decide)
    simp [parseLoop, htake, hname, hv, hx1, hx2, hx3, hx4, hx5, hx6, hx7, hx8,
      hx9, hx10]

/-- Witness for C5 at concrete inputs. -/
theorem c5_exit_codes_witness :
    parseLoop (fun _ => (0 : ℚ)) defaultArgs false ["--rate", "0"] = .exit 1 ∧
    parseLoop (fun _ => (0 : ℚ)) defaultArgs false ["--format", "wav"] = .exit 1 ∧
    parseLoop (fun _ => (0 : ℚ)) defaultArgs false ["--regdump", "0z"] = .exit 1 :=
  ⟨(c5_exit_codes (fun _ => (0 : ℚ))).2.2.2.2.2.1 defaultArgs false "--rate" "0" [] 0
      false (Or.inr rfl) (by decide) (by decide),
   (c5_exit_codes (fun _ => (0 : ℚ))).2.1 defaultArgs false "--format" "wav" []
      (Or.inr rfl) (by decide),
   (c5_exit_codes (fun _ => (0 : ℚ))).2.2.2.2.2.2.2.1 defaultArgs "0z" []
      (by decide)⟩

theorem parseLoop_SER {α : Type} [Zero α] (powConv : ℤ → α) :
    ∀ (l : List String) (a b : Args α) (e : Bool), SameExceptRate a b →
      outRel (parseLoop powConv a e l) (parseLoop powConv b e l)
  | [], _, _, _, h => h
  | [x], a, b, e, h => by
    rw [parseLoop.eq_2, parseLoop.eq_2]
    split
    · rfl
    · rfl
  | x :: v :: rest2, a, b, e, h => by
    obtain ⟨h1, h2, h3, h4, h5⟩ := h
    by_cases c1 : (x == "-h" || x == "--help") = true
    · rw [parseLoop.eq_3, parseLoop.eq_3, if_pos c1, if_pos c1]
      rfl
    by_cases c2 : (x == "--dry") = true
    · by_cases d1 : (e || (strtol 10 v).2) = true
      · simp [parseLoop, c1, c2, d1, outRel]
      · simp only [parseLoop, c1, c2, d1, Bool.false_eq_true, if_false, if_true]
        exact parseLoop_SER powConv rest2 _ _ _ ⟨h1, rfl, h3, h4, h5⟩
    by_cases c3 : (x == "-f" || x == "--format") = true
    · rcases hf : FORMAT_LABELS.findIdx? (· == v) with _ | j
      · simp [parseLoop, c1, c2, c3, hf, outRel]
      · by_cases d1 : e = true
        · simp [parseLoop, c1, c2, c3, hf, d1, outRel]
        · simp only [parseLoop, c1, c2, c3, hf, d1, Bool.false_eq_true, if_false, if_true]
          exact parseLoop_SER powConv rest2 _ _ _ ⟨rfl, h2, h3, h4, h5⟩
    by_cases c4 : (x == "-e" || x == "--engine") = true
    · rcases hf : tableFind MODE_TABLE v with _ | eng
      · simp [parseLoop, c1, c2, c3, c4, hf, outRel]
      · by_cases d1 : e = true
        · simp [parseLoop, c1, c2, c3, c4, hf, d1, outRel]
        · simp only [parseLoop, c1, c2, c3, c4, hf, d1, Bool.false_eq_true, if_false, if_true]
          exact parseLoop_SER powConv rest2 _ _ _ ⟨h1, h2, h3, rfl, h5⟩
    by_cases c5 : (x == "--preset") = true
    · rcases hf : tableFind PRESET_TABLE v with _ | rs
      · simp [parseLoop, c1, c2, c3, c4, c5, hf, outRel]
      · by_cases d1 : e = true
        · simp [parseLoop, c1, c2, c3, c4, c5, hf, d1, outRel]
        · simp only [parseLoop, c1, c2, c3, c4, c5, hf, d1, Bool.false_eq_true,
            if_false, if_true]
          exact parseLoop_SER powConv rest2 _ _ _ ⟨h1, h2, h3, h4, rfl⟩
    by_cases c6 : (x == "-r" || x == "--rate") = true
    · by_cases d1 : ((e || (strtol 10 v).2) || decide ((strtol 10 v).1 < 1)) = true
      · simp only [parseLoop, c1, c2, c3, c4, c5, c6, if_false, if_true,
          Bool.false_eq_true] at d1 ⊢
        simp [d1, outRel]
      · by_cases d2 : (e || (strtol 10 v).2) = true
        · rw [Bool.or_eq_true] at d1
          simp [d2] at d1
        · have hlt : ¬(decide ((strtol 10 v).1 < 1) = true) := fun hd =>
            d1 (by rw [Bool.or_eq_true]; exact Or.inr hd)
          simp only [parseLoop, c1, c2, c3, c4, c5, c6, d2, hlt, Bool.false_eq_true,
            Bool.false_or, if_false, if_true]
          exact parseLoop_SER powConv rest2 _ _ _ ⟨h1, h2, h3, h4, h5⟩
    by_cases c7 : (x.data.take 6 == "--reg-".data) = true
    · rcases hf : tableFind REGISTER_TABLE (String.mk (x.data.drop 6)) with _ | r
      · simp [parseLoop, c1, c2, c3, c4, c5, c6, c7, hf, outRel]
      · by_cases d1 : ((e || (strtol 16 v).2) || decide ((strtol 16 v).1 < 0)
            || decide (255 < (strtol 16 v).1)) = true
        · simp only [parseLoop, c1, c2, c3, c4, c5, c6, c7, hf, Bool.false_eq_true,
            if_false, if_true] at d1 ⊢
          simp [d1, outRel]
        · by_cases d2 : (e || (strtol 16 v).2) = true
          · rw [Bool.or_eq_true, Bool.or_eq_true] at d1
            simp [d2] at d1
          · have hlt0 : ¬(decide ((strtol 16 v).1 < 0) = true) := fun hd =>
              d1 (by rw [Bool.or_eq_true, Bool.or_eq_true]; exact Or.inl (Or.inr hd))
            have hlt255 : ¬(decide (255 < (strtol 16 v).1) = true) := fun hd =>
              d1 (by rw [Bool.or_eq_true]; exact Or.inr hd)
            simp only [parseLoop, c1, c2, c3, c4, c5, c6, c7, hf, d2, hlt0, hlt255,
              Bool.false_eq_true, Bool.false_or, if_false, if_true]
            exact parseLoop_SER powConv rest2 _ _ _ ⟨h1, h2, h3, h4, by rw [h5]⟩
    by_cases c8 : (x == "--regdump") = true
    · simp only [parseLoop, c1, c2, c3, c4, c5, c6, c7, c8, Bool.false_eq_true,
        if_false, if_true]
      rw [h5]
      rcases hf : regdumpApply e v.data b.regs with _ | rs
      · simp [hf, outRel]
      · by_cases d1 : e = true
        · simp [hf, d1, outRel]
        · simp only [hf, d1, Bool.false_eq_true, if_false]
          exact parseLoop_SER powConv rest2 _ _ _ ⟨h1, h2, h3, h4, rfl⟩
    by_cases c9 : (x == "--wet") = true
    · by_cases d1 : (e || (strtol 10 v).2) = true
      · simp [parseLoop, c1, c2, c3, c4, c5, c6, c7, c8, c9, d1, outRel]
      · simp only [parseLoop, c1, c2, c3, c4, c5, c6, c7, c8, c9, d1,
          Bool.false_eq_true, if_false, if_true]
        exact parseLoop_SER powConv rest2 _ _ _ ⟨h1, h2, rfl, h4, h5⟩
    · simp [parseLoop, c1, c2, c3, c4, c5, c6, c7, c8, c9, outRel]


/-- C8: the configured rate influences only the Ideal and Short engines.
First conjunct: two scans that differ only in the value of a valid
`--rate`/`-r` argument produce outcomes equal up to the stored rate (same
exit code, or configurations agreeing on every field except the rate).
Remaining conjuncts: `RunFixed` and `RunFloat` produce identical output
streams for configurations agreeing on everything but the rate. -/
theorem c8_rate_noninterference :
    (∀ (powConv : ℤ → ℚ) (a : Args ℚ) (e : Bool) (x : String) (tail : List String)
       (r1 r2 : String) (v1 v2 : ℤ),
      (x = "-r" ∨ x = "--rate") →
      strtol 10 r1 = (v1, false) → 1 ≤ v1 →
      strtol 10 r2 = (v2, false) → 1 ≤ v2 →
      outRel (parseLoop powConv a e (x :: r1 :: tail))
             (parseLoop powConv a e (x :: r2 :: tail))) ∧
    (∀ (σt : Type) (M : FixedChipModel σt) (fmt : SampleFormat) (a b : Args ℚ)
       (ferr : Bool) (cap : Option ℕ) (stdin : List ℕ), SameExceptRate a b →
      RunFixed M fmt a ferr cap stdin = RunFixed M fmt b ferr cap stdin) ∧
    (∀ (σt : Type) (M : FloatChipModel σt) (fmt : SampleFormat) (a b : Args ℚ)
       (ferr : Bool) (cap : Option ℕ) (stdin : List ℕ), SameExceptRate a b →
      RunFloat M fmt a ferr cap stdin = RunFloat M fmt b ferr cap stdin) := by
  refine ⟨?_, ?_, ?_⟩
  · intro powConv a e x tail r1 r2 v1 v2 hx hv1 h1 hv2 h2
    rcases hx with rfl | rfl <;> cases e
    · simp [parseLoop, hv1, hv2, show ¬(v1 < 1) by omega, show ¬(v2 < 1) by omega]
      exact parseLoop_SER powConv tail _ _ _ ⟨rfl, rfl, rfl, rfl, rfl⟩
    · simp [parseLoop, hv1, hv2, outRel]
    · simp [parseLoop, hv1, hv2, show ¬(v1 < 1) by omega, show ¬(v2 < 1) by omega]
      exact parseLoop_SER powConv tail _ _ _ ⟨rfl, rfl, rfl, rfl, rfl⟩
    · simp [parseLoop, hv1, hv2, outRel]
  · intro σt M fmt a b ferr cap stdin h
    obtain ⟨h1, h2, h3, h4, h5⟩ := h
    unfold RunFixed
    rw [h2, h3, h5]
  · intro σt M fmt a b ferr cap stdin h
    obtain ⟨h1, h2, h3, h4, h5⟩ := h
    unfold RunFloat
    rw [h2, h3, h5]

/-- Witness for C8 at concrete rates 23550 and 48000. -/
theorem c8_rate_noninterference_witness :
    strtol 10 "23550" = (23550, false) ∧ (1 : ℤ) ≤ 23550 ∧
    strtol 10 "48000" = (48000, false) ∧ (1 : ℤ) ≤ 48000 ∧
    outRel (parseLoop (fun _ => (0 : ℚ)) defaultArgs false ["--rate", "23550"])
           (parseLoop (fun _ => (0 : ℚ)) defaultArgs false ["--rate", "48000"]) :=
  ⟨by decide, by decide, by decide, by decide,
   c8_rate_noninterference.1 (fun _ => (0 : ℚ)) defaultArgs false "--rate" []
     "23550" "48000" 23550 48000 (Or.inr rfl) (by decide) (by decide) (by decide)
     (by decide)⟩


/-- C6: the decibel arguments of `--dry` and `--wet` produce, with `pow`
read as exact real exponentiation, the linear multiplier 0 when the
parsed integer satisfies 128 <= |DB| and 10^(DB/20) otherwise; and every
sample written by the processing loop equals
dry_value * dry_multiplier + wet_value * wet_multiplier, where the dry
value is the engine's stored mono input and the wet value the processed
chip output. -/
theorem c6_volume_mix :
    (∀ (a : Args ℝ) (v : String) (rest : List String) (db : ℤ),
      strtol 10 v = (db, false) →
      parseLoop (fun d => (10 : ℝ) ^ ((d : ℝ) / 20)) a false ("--dry" :: v :: rest)
        = parseLoop (fun d => (10 : ℝ) ^ ((d : ℝ) / 20))
            { a with dry := if 128 ≤ |db| then 0 else (10 : ℝ) ^ ((db : ℝ) / 20) }
            false rest) ∧
    (∀ (a : Args ℝ) (v : String) (rest : List String) (db : ℤ),
      strtol 10 v = (db, false) →
      parseLoop (fun d => (10 : ℝ) ^ ((d : ℝ) / 20)) a false ("--wet" :: v :: rest)
        = parseLoop (fun d => (10 : ℝ) ^ ((d : ℝ) / 20))
            { a with wet := if 128 ≤ |db| then 0 else (10 : ℝ) ^ ((db : ℝ) / 20) }
            false rest) ∧
    (∀ (σt ι : Type) (E : EngineModel σt ι) (dryM wetM : ℚ) (fmt : SampleFormat)
       (ferr : Bool) (s : σt) (ts : List (List ℕ × List ℕ)), goodTicks fmt.size ts →
      (runLoop E dryM wetM fmt ferr s none (ticksBytes ts)).2
        = (pairTrace E s (decTicks fmt ts)).map (fun p => p.1 * dryM + p.2 * wetM)) := by
  have habs : ∀ db : ℤ, (db ≤ -128 ∨ 128 ≤ db) ↔ 128 ≤ |db| := by
    intro db
    rw [le_abs]
    omega
  refine ⟨?_, ?_, ?_⟩
  · intro a v rest db hv
    by_cases hc : 128 ≤ |db|
    · rcases (habs db).mpr hc with h | h <;> simp [parseLoop, hv, h, hc]
    · have hn1 : ¬(db ≤ -128) := fun h => hc ((habs db).mp (Or.inl h))
      have hn2 : ¬(128 ≤ db) := fun h => hc ((habs db).mp (Or.inr h))
      simp [parseLoop, hv, hn1, hn2, hc]
  · intro a v rest db hv
    by_cases hc : 128 ≤ |db|
    · rcases (habs db).mpr hc with h | h <;> simp [parseLoop, hv, h, hc]
    · have hn1 : ¬(db ≤ -128) := fun h => hc ((habs db).mp (Or.inl h))
      have hn2 : ¬(128 ≤ db) := fun h => hc ((habs db).mp (Or.inr h))
      simp [parseLoop, hv, hn1, hn2, hc]
  · intro σt ι E dryM wetM fmt ferr s ts hg
    rw [runLoop_ticks E dryM wetM fmt ferr ts s hg]
    simp [mix]

/-- Witness for C6 at `--dry -6` from the default configuration. -/
theorem c6_volume_mix_witness :
    strtol 10 "-6" = (-6, false) ∧
    parseLoop (fun d => (10 : ℝ) ^ ((d : ℝ) / 20)) defaultArgs false ["--dry", "-6"]
      = parseLoop (fun d => (10 : ℝ) ^ ((d : ℝ) / 20))
          { defaultArgs with
            dry := if 128 ≤ |(-6 : ℤ)| then 0 else (10 : ℝ) ^ (((-6 : ℤ) : ℝ) / 20) }
          false [] :=
  ⟨by decide, c6_volume_mix.1 defaultArgs "-6" [] (-6) (by decide)⟩


/-- C3: on an input of complete interleaved ticks, each loop iteration
consumes one sample per input channel (two channels per tick) and writes,
channel-block by channel-block, K samples per output channel per tick —
K = 2 for the Fixed and Float engines (2x oversampling), K = 1 for the
Ideal and Short engines — and, provided the chip's `Process` ignores its
second input channel (as the specification states), the output depends
only on the channel-0 samples: the second channel is consumed from the
stream but unused in processing. -/
theorem c3_stream_layout :
    (∀ (σt : Type) (M : FixedChipModel σt) (fmt : SampleFormat) (args : Args ℚ)
       (ts : List (List ℕ × List ℕ)), goodTicks fmt.size ts →
      RunFixed M fmt args false none (ticksBytes ts)
        = (0, (pairTrace (FixedEngine M.step) (M.init args.regs) (decTicks fmt ts)).map
            (mix args.dry args.wet)) ∧
      (RunFixed M fmt args false none (ticksBytes ts)).2.length = 2 * 2 * ts.length) ∧
    (∀ (σt : Type) (M : FloatChipModel σt) (fmt : SampleFormat) (args : Args ℚ)
       (ts : List (List ℕ × List ℕ)), goodTicks fmt.size ts →
      RunFloat M fmt args false none (ticksBytes ts)
        = (0, (pairTrace (FloatEngine M.step) (M.init args.regs) (decTicks fmt ts)).map
            (mix args.dry args.wet)) ∧
      (RunFloat M fmt args false none (ticksBytes ts)).2.length = 2 * 2 * ts.length) ∧
    (∀ (σt : Type) (M : IdealChipModel σt) (fmt : SampleFormat) (args : Args ℚ)
       (ts : List (List ℕ × List ℕ)), goodTicks fmt.size ts →
      RunIdeal M fmt args false none (ticksBytes ts)
        = (0, (pairTrace (IdealEngine M.step) (M.init args.rate args.regs)
            (decTicks fmt ts)).map (mix args.dry args.wet)) ∧
      (RunIdeal M fmt args false none (ticksBytes ts)).2.length = 2 * 1 * ts.length) ∧
    (∀ (σt : Type) (M : ShortChipModel σt) (fmt : SampleFormat) (args : Args ℚ)
       (ts : List (List ℕ × List ℕ)), goodTicks fmt.size ts →
      RunShort M fmt args false none (ticksBytes ts)
        = (0, (pairTrace (ShortEngine M.step) (M.init args.rate args.regs)
            (decTicks fmt ts)).map (mix args.dry args.wet)) ∧
      (RunShort M fmt args false none (ticksBytes ts)).2.length = 2 * 1 * ts.length) ∧
    (∀ (σt ι : Type) (E : EngineModel σt ι) (dryM wetM : ℚ) (fmt : SampleFormat)
       (s : σt) (ts ts' : List (List ℕ × List ℕ)),
      (∀ (s' : σt) (i j j' : ι), E.step s' (i, j) = E.step s' (i, j')) →
      goodTicks fmt.size ts → goodTicks fmt.size ts' →
      (decTicks fmt ts).map Prod.fst = (decTicks fmt ts').map Prod.fst →
      runLoop E dryM wetM fmt false s none (ticksBytes ts)
        = runLoop E dryM wetM fmt false s none (ticksBytes ts')) := by
  refine ⟨?_, ?_, ?_, ?_, ?_⟩
  · intro σt M fmt args ts hg
    have he : RunFixed M fmt args false none (ticksBytes ts)
        = (0, (pairTrace (FixedEngine M.step) (M.init args.regs) (decTicks fmt ts)).map
            (mix args.dry args.wet)) := by
      unfold RunFixed
      rw [runLoop_ticks _ _ _ fmt false ts _ hg]
      rfl
    refine ⟨he, ?_⟩
    rw [he]
    simp only [List.length_map]
    rw [pairTrace_length (FixedEngine M.step) 4 (tickPairs_fixed_len M.step)]
    simp [decTicks]
  · intro σt M fmt args ts hg
    have he : RunFloat M fmt args false none (ticksBytes ts)
        = (0, (pairTrace (FloatEngine M.step) (M.init args.regs) (decTicks fmt ts)).map
            (mix args.dry args.wet)) := by
      unfold RunFloat
      rw [runLoop_ticks _ _ _ fmt false ts _ hg]
      rfl
    refine ⟨he, ?_⟩
    rw [he]
    simp only [List.length_map]
    rw [pairTrace_length (FloatEngine M.step) 4 (tickPairs_float_len M.step)]
    simp [decTicks]
  · intro σt M fmt args ts hg
    have he : RunIdeal M fmt args false none (ticksBytes ts)
        = (0, (pairTrace (IdealEngine M.step) (M.init args.rate args.regs)
            (decTicks fmt ts)).map (mix args.dry args.wet)) := by
      unfold RunIdeal
      rw [runLoop_ticks _ _ _ fmt false ts _ hg]
      rfl
    refine ⟨he, ?_⟩
    rw [he]
    simp only [List.length_map]
    rw [pairTrace_length (IdealEngine M.step) 2 (tickPairs_ideal_len M.step)]
    simp [decTicks]
  · intro σt M fmt args ts hg
    have he : RunShort M fmt args false none (ticksBytes ts)
        = (0, (pairTrace (ShortEngine M.step) (M.init args.rate args.regs)
            (decTicks fmt ts)).map (mix args.dry args.wet)) := by
      unfold RunShort
      rw [runLoop_ticks _ _ _ fmt false ts _ hg]
      rfl
    refine ⟨he, ?_⟩
    rw [he]
    simp only [List.length_map]
    rw [pairTrace_length (ShortEngine M.step) 2 (tickPairs_short_len M.step)]
    simp [decTicks]
  · intro σt ι E dryM wetM fmt s ts ts' hig hg hg' hfst
    rw [runLoop_ticks E dryM wetM fmt false ts s hg,
      runLoop_ticks E dryM wetM fmt false ts' s hg',
      pairTrace_ignores_second E hig (decTicks fmt ts) (decTicks fmt ts') s hfst]

/-- Witness for C3 with a one-tick U8 stream and concrete chips. -/
theorem c3_stream_layout_witness :
    goodTicks fmtU8.size [([5], [7])] ∧
    (RunFixed testFixedChip fmtU8 defaultArgs false none
        (ticksBytes [([5], [7])])).2.length = 2 * 2 * 1 ∧
    (RunIdeal testIdealChip fmtU8 defaultArgs false none
        (ticksBytes [([5], [7])])).2.length = 2 * 1 * 1 :=
  ⟨by simp [goodTicks, fmtU8],
   (c3_stream_layout.1 Unit testFixedChip fmtU8 defaultArgs [([5], [7])]
     (by simp [goodTicks, fmtU8])).2,
   (c3_stream_layout.2.2.1 Unit testIdealChip fmtU8 defaultArgs [([5], [7])]
     (by simp [goodTicks, fmtU8])).2⟩


/-- C4 counterexample: with the 2-byte S16_LE format, a 1-byte input
stream is a short read in the middle of a sample; the stream has no error
indicator (plain EOF), so `ferror` is false and the driver shuts down with
exit code 0, where the claim requires exit code 1. -/
theorem c4_counterexample :
    fmtS16L.size = 2 ∧ ([0] : List ℕ).length = 1 ∧
    RunFixed testFixedChip fmtS16L defaultArgs false none [0] = (0, []) := by
  refine ⟨rfl, rfl, ?_⟩
  have h0 : readSample fmtS16L [0] = none := rfl
  unfold RunFixed
  rw [runLoop_read_none _ _ _ _ _ _ _ _ h0]
  rfl

/-- C4 (amended): when the input stream ends without a stream-error
indicator, any short read — on a sample or channel boundary or mid-sample
alike — is treated as end-of-file and the loop exits cleanly with code 0;
when the stream has an error indicator, the loop exits with code 1; and a
stream-writer failure always produces exit code 1. -/
theorem c4_read_write_errors :
    (∀ (σt ι : Type) (E : EngineModel σt ι) (dryM wetM : ℚ) (fmt : SampleFormat)
       (s : σt) (stdin : List ℕ),
      (runLoop E dryM wetM fmt false s none stdin).1 = 0) ∧
    (∀ (σt ι : Type) (E : EngineModel σt ι) (dryM wetM : ℚ) (fmt : SampleFormat)
       (s : σt) (stdin : List ℕ),
      (runLoop E dryM wetM fmt true s none stdin).1 = 1) ∧
    (∀ (σt ι : Type) (E : EngineModel σt ι) (dryM wetM : ℚ) (fmt : SampleFormat)
       (ferr : Bool) (s : σt) (ts : List (List ℕ × List ℕ)) (n : ℕ),
      goodTicks fmt.size ts →
      n < (pairTrace E s (decTicks fmt ts)).length →
      (runLoop E dryM wetM fmt ferr s (some n) (ticksBytes ts)).1 = 1) := by
  refine ⟨?_, ?_, ?_⟩
  · intro σt ι E dryM wetM fmt s stdin
    exact runLoopF_eof_exit_zero E dryM wetM fmt _ s stdin
  · intro σt ι E dryM wetM fmt s stdin
    exact runLoopF_ferr_exit_one E dryM wetM fmt _ s stdin (by omega)
  · intro σt ι E dryM wetM fmt ferr s ts n hg hn
    exact runLoop_cap_exceeded E dryM wetM fmt ferr ts s n hg hn

/-- Witness for C4: a full tick whose writes are refused from the start. -/
theorem c4_read_write_errors_witness :
    goodTicks fmtU8.size [([5], [7])] ∧
    0 < (pairTrace (FixedEngine testFixedChip.step) ()
          (decTicks fmtU8 [([5], [7])])).length ∧
    (runLoop (FixedEngine testFixedChip.step) 1 1 fmtU8 false () (some 0)
        (ticksBytes [([5], [7])])).1 = 1 :=
  ⟨by simp [goodTicks, fmtU8],
   by rw [pairTrace_length (FixedEngine testFixedChip.step) 4
       (tickPairs_fixed_len testFixedChip.step)]; simp [decTicks],
   c4_read_write_errors.2.2 Unit ℤ (FixedEngine testFixedChip.step) 1 1 fmtU8 false ()
     [([5], [7])] 0 (by simp [goodTicks, fmtU8])
     (by rw [pairTrace_length (FixedEngine testFixedChip.step) 4
         (tickPairs_fixed_len testFixedChip.step)]; simp [decTicks])⟩

end YM7128B
